import Mathlib

/-!
Verification of the ssd1306lib OLED driver (src/oled.c).

The development shallowly embeds the driver's data and code:
* machine integers are `Nat` with explicit `% 2^w` where the C type wraps;
* AVR pointers are 16-bit, modelled as `Nat` values `< 65536`, with `0` for `NULL`;
* byte-addressable memory is a total function `Nat → Nat`;
* the interrupt handler `ISR(TWI_vect)` becomes a step function `twi_isr`
  driven once per hardware event, returning the byte written to `TWDR` (if any)
  and whether the completion callback was invoked during that event;
* possibly diverging C loops (spin loops, `uint8_t` counter loops that can wrap
  forever) return `Option`, with `none` denoting divergence.
-/

/-- Byte-addressable memory of the MCU: address to byte value. -/
def Mem : Type := Nat → Nat

/-- Pointwise memory update (a single byte store). -/
def mupd (m : Mem) (a v : Nat) : Mem := fun i => if i = a then v else m i

/-- Error taxonomy of the library. Modelled from the spec: the enum `OLED_err`
lives in the missing header `oled.h`; the spec gives Ok, Busy, Bounds and
InvalidParameter, and `oled.c` uses the constants `OLED_EOK`, `OLED_EBUSY`,
`OLED_EBOUNDS`, `OLED_EPARAMS`. -/
inductive OLED_err where
  | OLED_EOK
  | OLED_EBUSY
  | OLED_EBOUNDS
  | OLED_EPARAMS
deriving DecidableEq

open OLED_err

/-- States used in the ISR FSM (`enum I2C_State_e` in src/oled.c). -/
inductive I2C_State_e where
  | idle
  | stop
  | slaveaddr
  | writepfx
  | writebyte
deriving DecidableEq

/-- The shared I2C driver state: the `static` variables of src/oled.c
(lines 55-72) together with the TWI hardware registers they touch.

`i2c_prefix_count` is declared `uint8_t *` in the source (line 57) but is
assigned the integer `prefix_len` and then decremented and null-tested as a
counter; on AVR a pointer is 16 bits, so the counter wraps modulo 2^16.
`i2c_data_count` is `uint16_t`, also modulo 2^16.  Pointers (`i2c_prefix_ptr`,
`i2c_data_ptr`) are 16-bit addresses with 0 = NULL.  The callback function
pointer is modelled as a numeric identifier (see `CB_EMPTY` etc. below). -/
structure I2C where
  i2c_state : I2C_State_e
  i2c_devaddr : Nat
  i2c_prefix_ptr : Nat
  i2c_prefix_count : Nat
  i2c_data_ptr : Nat
  i2c_data_count : Nat
  i2c_is_fastfail : Bool
  i2c_callback : Nat
  i2c_callback_args : Nat
  TWCR : Nat
  TWDR : Nat
  TWBR : Nat
  TWSR : Nat
deriving DecidableEq

/-- Result of one invocation of the interrupt handler: the next driver state,
the byte written to `TWDR` during this hardware event (if any), and whether
the completion callback was invoked during this event. -/
structure TwiOut where
  st : I2C
  sent : Option Nat
  fired : Bool
deriving DecidableEq

/-- One invocation of `ISR(TWI_vect)` (src/oled.c lines 124-165), per hardware
event.  Bit constants: `TWINT = 1<<7 = 0x80`, `TWSTA = 1<<5 = 0x20`,
`TWSTO = 1<<4 = 0x10`. -/
def twi_isr (mem : Mem) (s : I2C) : TwiOut :=
  match s.i2c_state with
  | .idle | .stop =>
      -- transfer stop, go to IDLE and signal with callback
      { st := { s with TWCR := s.TWCR ||| 0x90, i2c_state := .idle },
        sent := none, fired := true }
  | .slaveaddr =>
      { st := { s with
                  TWDR := s.i2c_devaddr,
                  TWCR := (s.TWCR &&& 0xDF) ||| 0x80,
                  i2c_state :=
                    if s.i2c_prefix_ptr = 0 ∧ s.i2c_data_ptr = 0 then .stop
                    else if s.i2c_prefix_ptr = 0 then .writebyte
                    else .writepfx },
        sent := some s.i2c_devaddr, fired := false }
  | .writepfx =>
      -- load next byte of prefix; the count lives in a 16-bit pointer variable
      let b := mem s.i2c_prefix_ptr
      let cnt := (s.i2c_prefix_count + 65535) % 65536
      { st := { s with
                  TWDR := b,
                  i2c_prefix_ptr := (s.i2c_prefix_ptr + 1) % 65536,
                  i2c_prefix_count := cnt,
                  TWCR := s.TWCR ||| 0x80,
                  i2c_state :=
                    if cnt = 0 then
                      (if s.i2c_data_ptr = 0 then .stop else .writebyte)
                    else .writepfx },
        sent := some b, fired := false }
  | .writebyte =>
      let b := mem s.i2c_data_ptr
      let cnt := (s.i2c_data_count + 65535) % 65536
      { st := { s with
                  TWDR := b,
                  i2c_data_ptr := (s.i2c_data_ptr + 1) % 65536,
                  i2c_data_count := cnt,
                  TWCR := s.TWCR ||| 0x80,
                  i2c_state := if cnt = 0 then .stop else .writebyte },
        sent := some b, fired := false }

/-- `OLED_i2c_tx_shed` (src/oled.c lines 99-121).  Inside the atomic block:
if the bus is idle, capture all supplied fields, arm the start condition
(`TWCR |= (1<<TWSTA)|(1<<TWINT)`, i.e. `||| 0xA0`) and move to `slaveaddr`;
otherwise return false without any side effect.  `i2c_devaddr = addr << 1`
truncated to a byte. -/
def OLED_i2c_tx_shed (addr pfx pfx_len bytes bytes_len end_cbk cbk_args : Nat)
    (fastfail : Bool) (s : I2C) : I2C × Bool :=
  if s.i2c_state = .idle then
    ({ i2c_state := .slaveaddr,
       i2c_devaddr := (addr * 2) % 256,
       i2c_prefix_ptr := pfx,
       i2c_prefix_count := pfx_len,
       i2c_data_ptr := bytes,
       i2c_data_count := bytes_len,
       i2c_is_fastfail := fastfail,
       i2c_callback := end_cbk,
       i2c_callback_args := cbk_args,
       TWCR := s.TWCR ||| 0xA0,
       TWDR := s.TWDR,
       TWBR := s.TWBR,
       TWSR := s.TWSR }, true)
  else (s, false)

/-- Result of running several hardware events: final driver state, the bytes
written to `TWDR` in order, and how many times the completion callback fired. -/
structure RunOut where
  st : I2C
  sent : List Nat
  fires : Nat
deriving DecidableEq

/-- Drive the interrupt handler for `n` consecutive hardware events. -/
def run_isr (mem : Mem) (s : I2C) : Nat → RunOut
  | 0 => { st := s, sent := [], fires := 0 }
  | n + 1 =>
      let o := twi_isr mem s
      let r := run_isr mem o.st n
      { st := r.st,
        sent := o.sent.toList ++ r.sent,
        fires := (if o.fired then 1 else 0) + r.fires }

/-- Splitting a run of `m + k` events at the `m`-th event. -/
theorem run_isr_add (mem : Mem) (m k : Nat) (s : I2C) :
    run_isr mem s (m + k) =
      { st := (run_isr mem (run_isr mem s m).st k).st,
        sent := (run_isr mem s m).sent ++ (run_isr mem (run_isr mem s m).st k).sent,
        fires := (run_isr mem s m).fires + (run_isr mem (run_isr mem s m).st k).fires } := by
  induction m generalizing s with
  | zero => simp [run_isr]
  | succ m ih =>
      have h : m + 1 + k = (m + k) + 1 := by omega
      rw [h]
      simp only [run_isr]
      rw [ih]
      simp [List.append_assoc, Nat.add_assoc]

/-- The number of callback firings never decreases as more events are run. -/
theorem run_isr_fires_mono (mem : Mem) (s : I2C) {j k : Nat} (h : j ≤ k) :
    (run_isr mem s j).fires ≤ (run_isr mem s k).fires := by
  obtain ⟨d, rfl⟩ := Nat.le.dest h
  rw [run_isr_add]
  simp

/-- Running the handler through a whole prefix phase: from `writepfx` with
remaining count `c` (1 ≤ c ≤ 65535) and prefix pointer `< 65536`, after `c`
events the handler has transmitted the `c` bytes at the prefix pointer and
moved on (to `writebyte` when data is present, else to `stop`), firing no
callback. -/
theorem run_isr_writepfx (mem : Mem) (s : I2C) (c : Nat)
    (h1 : 1 ≤ c) (h2 : c ≤ 65535)
    (hs : s.i2c_state = .writepfx)
    (hc : s.i2c_prefix_count = c)
    (hp : s.i2c_prefix_ptr < 65536) :
    run_isr mem s c =
      { st := { s with
          i2c_state := if s.i2c_data_ptr = 0 then .stop else .writebyte,
          i2c_prefix_ptr := (s.i2c_prefix_ptr + c) % 65536,
          i2c_prefix_count := 0,
          TWCR := s.TWCR ||| 0x80,
          TWDR := mem ((s.i2c_prefix_ptr + (c - 1)) % 65536) },
        sent := (List.range c).map (fun i => mem ((s.i2c_prefix_ptr + i) % 65536)),
        fires := 0 } := by
  induction c generalizing s with
  | zero => omega
  | succ c ih =>
      rcases Nat.eq_zero_or_pos c with hc0 | hc1
      · subst hc0
        simp only [run_isr, twi_isr, hs]
        rw [hc]
        norm_num [run_isr, Nat.mod_eq_of_lt hp]
        simp [List.range_succ, Nat.mod_eq_of_lt hp]
      · have hcnt : (c + 1 + 65535) % 65536 = c := by omega
        simp only [run_isr, twi_isr, hs]
        rw [hc, hcnt]
        have hne : ¬ (c = 0) := by omega
        simp only [hne, if_false]
        rw [ih _ hc1 (by omega) rfl rfl (Nat.mod_lt _ (by norm_num))]
        have e1 : ((s.i2c_prefix_ptr + 1) % 65536 + c) % 65536
            = (s.i2c_prefix_ptr + (c + 1)) % 65536 := by omega
        have e2 : ((s.i2c_prefix_ptr + 1) % 65536 + (c - 1)) % 65536
            = (s.i2c_prefix_ptr + (c + 1 - 1)) % 65536 := by omega
        have e3 : ((s.TWCR ||| 0x80) ||| 0x80) = s.TWCR ||| 0x80 := by
          rw [Nat.or_assoc]
          congr 1
        have e4 : mem s.i2c_prefix_ptr ::
            List.map (fun i => mem ((s.i2c_prefix_ptr + 1 + i) % 65536))
              (List.range c)
            = List.map (fun i => mem ((s.i2c_prefix_ptr + i) % 65536))
              (List.range (c + 1)) := by
          have h0 : (s.i2c_prefix_ptr + 0) % 65536 = s.i2c_prefix_ptr := by omega
          have htail : List.map
              (fun i => mem ((s.i2c_prefix_ptr + 1 + i) % 65536))
              (List.range c)
              = List.map ((fun i => mem ((s.i2c_prefix_ptr + i) % 65536)) ∘ Nat.succ)
              (List.range c) := by
            refine List.map_congr_left ?_
            intro i _
            simp only [Function.comp_apply]
            exact congrArg mem (by omega)
          rw [List.range_succ_eq_map, List.map_cons, List.map_map, h0, htail]
        simp [e1, e2, e3, e4]

/-- Running the handler through a whole data phase: from `writebyte` with
remaining count `c` (1 ≤ c ≤ 65535) and data pointer `< 65536`, after `c`
events the handler has transmitted the `c` bytes at the data pointer and
moved to `stop`, firing no callback. -/
theorem run_isr_writebyte (mem : Mem) (s : I2C) (c : Nat)
    (h1 : 1 ≤ c) (h2 : c ≤ 65535)
    (hs : s.i2c_state = .writebyte)
    (hc : s.i2c_data_count = c)
    (hp : s.i2c_data_ptr < 65536) :
    run_isr mem s c =
      { st := { s with
          i2c_state := .stop,
          i2c_data_ptr := (s.i2c_data_ptr + c) % 65536,
          i2c_data_count := 0,
          TWCR := s.TWCR ||| 0x80,
          TWDR := mem ((s.i2c_data_ptr + (c - 1)) % 65536) },
        sent := (List.range c).map (fun i => mem ((s.i2c_data_ptr + i) % 65536)),
        fires := 0 } := by
  induction c generalizing s with
  | zero => omega
  | succ c ih =>
      rcases Nat.eq_zero_or_pos c with hc0 | hc1
      · subst hc0
        simp only [run_isr, twi_isr, hs]
        rw [hc]
        norm_num [run_isr, Nat.mod_eq_of_lt hp]
        simp [List.range_succ, Nat.mod_eq_of_lt hp]
      · have hcnt : (c + 1 + 65535) % 65536 = c := by omega
        simp only [run_isr, twi_isr, hs]
        rw [hc, hcnt]
        have hne : ¬ (c = 0) := by omega
        simp only [hne, if_false]
        rw [ih _ hc1 (by omega) rfl rfl (Nat.mod_lt _ (by norm_num))]
        have e1 : ((s.i2c_data_ptr + 1) % 65536 + c) % 65536
            = (s.i2c_data_ptr + (c + 1)) % 65536 := by omega
        have e2 : ((s.i2c_data_ptr + 1) % 65536 + (c - 1)) % 65536
            = (s.i2c_data_ptr + (c + 1 - 1)) % 65536 := by omega
        have e3 : ((s.TWCR ||| 0x80) ||| 0x80) = s.TWCR ||| 0x80 := by
          rw [Nat.or_assoc]
          congr 1
        have e4 : mem s.i2c_data_ptr ::
            List.map (fun i => mem ((s.i2c_data_ptr + 1 + i) % 65536))
              (List.range c)
            = List.map (fun i => mem ((s.i2c_data_ptr + i) % 65536))
              (List.range (c + 1)) := by
          have h0 : (s.i2c_data_ptr + 0) % 65536 = s.i2c_data_ptr := by omega
          have htail : List.map
              (fun i => mem ((s.i2c_data_ptr + 1 + i) % 65536))
              (List.range c)
              = List.map ((fun i => mem ((s.i2c_data_ptr + i) % 65536)) ∘ Nat.succ)
              (List.range c) := by
            refine List.map_congr_left ?_
            intro i _
            simp only [Function.comp_apply]
            exact congrArg mem (by omega)
          rw [List.range_succ_eq_map, List.map_cons, List.map_map, h0, htail]
        simp [e1, e2, e3, e4]

/-- Claim C3: whenever the bus state is not Idle, `OLED_i2c_tx_shed` returns
false and leaves the entire shared transaction state (device address, prefix
and data pointers and counts, fastfail flag, callback and argument, bus state,
registers) unchanged; whenever the bus state is Idle, it captures all supplied
fields into the shared request state, sets the bus state to SlaveAddress,
starts the hardware exchange (TWCR |= TWSTA|TWINT), and returns true. -/
theorem tx_shed_spec (addr pfx pfx_len bytes bytes_len end_cbk cbk_args : Nat)
    (fastfail : Bool) (s : I2C) :
    (s.i2c_state ≠ .idle →
      OLED_i2c_tx_shed addr pfx pfx_len bytes bytes_len end_cbk cbk_args fastfail s
        = (s, false)) ∧
    (s.i2c_state = .idle →
      OLED_i2c_tx_shed addr pfx pfx_len bytes bytes_len end_cbk cbk_args fastfail s
        = ({ i2c_state := .slaveaddr,
             i2c_devaddr := (addr * 2) % 256,
             i2c_prefix_ptr := pfx,
             i2c_prefix_count := pfx_len,
             i2c_data_ptr := bytes,
             i2c_data_count := bytes_len,
             i2c_is_fastfail := fastfail,
             i2c_callback := end_cbk,
             i2c_callback_args := cbk_args,
             TWCR := s.TWCR ||| 0xA0,
             TWDR := s.TWDR,
             TWBR := s.TWBR,
             TWSR := s.TWSR }, true)) := by
  constructor
  · intro h
    simp [OLED_i2c_tx_shed, h]
  · intro h
    simp [OLED_i2c_tx_shed, h]

/-- Witness for `tx_shed_spec` at concrete inputs: a busy bus rejects without
mutation, an idle bus accepts. -/
theorem tx_shed_spec_witness :
    (OLED_i2c_tx_shed 60 256 4 512 8 1 2 true
        { i2c_state := .writebyte, i2c_devaddr := 0, i2c_prefix_ptr := 0,
          i2c_prefix_count := 0, i2c_data_ptr := 3, i2c_data_count := 5,
          i2c_is_fastfail := false, i2c_callback := 0, i2c_callback_args := 0,
          TWCR := 5, TWDR := 0, TWBR := 0, TWSR := 0 }
      = ({ i2c_state := .writebyte, i2c_devaddr := 0, i2c_prefix_ptr := 0,
           i2c_prefix_count := 0, i2c_data_ptr := 3, i2c_data_count := 5,
           i2c_is_fastfail := false, i2c_callback := 0, i2c_callback_args := 0,
           TWCR := 5, TWDR := 0, TWBR := 0, TWSR := 0 }, false)) ∧
    (OLED_i2c_tx_shed 60 256 4 512 8 1 2 true
        { i2c_state := .idle, i2c_devaddr := 0, i2c_prefix_ptr := 0,
          i2c_prefix_count := 0, i2c_data_ptr := 3, i2c_data_count := 5,
          i2c_is_fastfail := false, i2c_callback := 0, i2c_callback_args := 0,
          TWCR := 5, TWDR := 9, TWBR := 7, TWSR := 8 }
      = ({ i2c_state := .slaveaddr, i2c_devaddr := 120, i2c_prefix_ptr := 256,
           i2c_prefix_count := 4, i2c_data_ptr := 512, i2c_data_count := 8,
           i2c_is_fastfail := true, i2c_callback := 1, i2c_callback_args := 2,
           TWCR := 5 ||| 0xA0, TWDR := 9, TWBR := 7, TWSR := 8 }, true)) := by
  constructor
  · exact (tx_shed_spec 60 256 4 512 8 1 2 true _).1 (by decide)
  · exact (tx_shed_spec 60 256 4 512 8 1 2 true _).2 rfl

/-- Claim C4: each single invocation of the interrupt handler makes exactly
the specified transition.  In `slaveaddr` it writes the address byte and moves
to `stop` when both prefix and data are absent (NULL), to `writebyte` when
only the prefix is absent, and to `writepfx` otherwise.  In `writepfx`
it writes the next prefix byte and decrements the remaining prefix count
(modulo 2^16; an ordinary decrement when the count is in 1..65535), moving
when the count reaches zero to `writebyte` if data is present else `stop`.
In `writebyte` it writes the next data byte and decrements the remaining data
count likewise, moving to `stop` when that count reaches zero.  No callback
fires in any of these three states. -/
theorem isr_transition_spec (mem : Mem) (s : I2C) :
    (s.i2c_state = .slaveaddr →
      (twi_isr mem s).sent = some s.i2c_devaddr ∧
      (twi_isr mem s).fired = false ∧
      (twi_isr mem s).st.i2c_state =
        (if s.i2c_prefix_ptr = 0 ∧ s.i2c_data_ptr = 0 then .stop
         else if s.i2c_prefix_ptr = 0 then .writebyte
         else .writepfx)) ∧
    (s.i2c_state = .writepfx →
      (twi_isr mem s).sent = some (mem s.i2c_prefix_ptr) ∧
      (twi_isr mem s).fired = false ∧
      (twi_isr mem s).st.i2c_prefix_count = (s.i2c_prefix_count + 65535) % 65536 ∧
      (1 ≤ s.i2c_prefix_count → s.i2c_prefix_count ≤ 65535 →
        (twi_isr mem s).st.i2c_prefix_count = s.i2c_prefix_count - 1) ∧
      (twi_isr mem s).st.i2c_state =
        (if (twi_isr mem s).st.i2c_prefix_count = 0 then
          (if s.i2c_data_ptr = 0 then .stop else .writebyte)
         else .writepfx)) ∧
    (s.i2c_state = .writebyte →
      (twi_isr mem s).sent = some (mem s.i2c_data_ptr) ∧
      (twi_isr mem s).fired = false ∧
      (twi_isr mem s).st.i2c_data_count = (s.i2c_data_count + 65535) % 65536 ∧
      (1 ≤ s.i2c_data_count → s.i2c_data_count ≤ 65535 →
        (twi_isr mem s).st.i2c_data_count = s.i2c_data_count - 1) ∧
      (twi_isr mem s).st.i2c_state =
        (if (twi_isr mem s).st.i2c_data_count = 0 then .stop else .writebyte)) := by
  refine ⟨?_, ?_, ?_⟩
  · intro h
    simp [twi_isr, h]
  · intro h
    refine ⟨by simp [twi_isr, h], by simp [twi_isr, h], by simp [twi_isr, h],
      ?_, by simp [twi_isr, h]⟩
    intro h1 h2
    simp only [twi_isr, h]
    omega
  · intro h
    refine ⟨by simp [twi_isr, h], by simp [twi_isr, h], by simp [twi_isr, h],
      ?_, by simp [twi_isr, h]⟩
    intro h1 h2
    simp only [twi_isr, h]
    omega

/-- Witness for `isr_transition_spec`: the three branches evaluated at
concrete states. -/
theorem isr_transition_spec_witness :
    ((twi_isr (fun a => a + 1)
        { i2c_state := .slaveaddr, i2c_devaddr := 120, i2c_prefix_ptr := 300,
          i2c_prefix_count := 2, i2c_data_ptr := 0, i2c_data_count := 0,
          i2c_is_fastfail := true, i2c_callback := 0, i2c_callback_args := 0,
          TWCR := 0, TWDR := 0, TWBR := 0, TWSR := 0 }).st.i2c_state
      = I2C_State_e.writepfx) ∧
    ((twi_isr (fun a => a + 1)
        { i2c_state := .writepfx, i2c_devaddr := 120, i2c_prefix_ptr := 300,
          i2c_prefix_count := 1, i2c_data_ptr := 0, i2c_data_count := 0,
          i2c_is_fastfail := true, i2c_callback := 0, i2c_callback_args := 0,
          TWCR := 0, TWDR := 0, TWBR := 0, TWSR := 0 }).st.i2c_state
      = I2C_State_e.stop) ∧
    ((twi_isr (fun a => a + 1)
        { i2c_state := .writebyte, i2c_devaddr := 120, i2c_prefix_ptr := 0,
          i2c_prefix_count := 0, i2c_data_ptr := 700, i2c_data_count := 2,
          i2c_is_fastfail := true, i2c_callback := 0, i2c_callback_args := 0,
          TWCR := 0, TWDR := 0, TWBR := 0, TWSR := 0 }).st.i2c_data_count = 1) := by
  refine ⟨?_, ?_, ?_⟩
  · have h := ((isr_transition_spec (fun a => a + 1)
      { i2c_state := .slaveaddr, i2c_devaddr := 120, i2c_prefix_ptr := 300,
        i2c_prefix_count := 2, i2c_data_ptr := 0, i2c_data_count := 0,
        i2c_is_fastfail := true, i2c_callback := 0, i2c_callback_args := 0,
        TWCR := 0, TWDR := 0, TWBR := 0, TWSR := 0 }).1 rfl).2.2
    rw [h]
    decide
  · have h := ((isr_transition_spec (fun a => a + 1)
      { i2c_state := .writepfx, i2c_devaddr := 120, i2c_prefix_ptr := 300,
        i2c_prefix_count := 1, i2c_data_ptr := 0, i2c_data_count := 0,
        i2c_is_fastfail := true, i2c_callback := 0, i2c_callback_args := 0,
        TWCR := 0, TWDR := 0, TWBR := 0, TWSR := 0 }).2.1 rfl).2.2.2.2
    rw [h]
    decide
  · have h := ((isr_transition_spec (fun a => a + 1)
      { i2c_state := .writebyte, i2c_devaddr := 120, i2c_prefix_ptr := 0,
        i2c_prefix_count := 0, i2c_data_ptr := 700, i2c_data_count := 2,
        i2c_is_fastfail := true, i2c_callback := 0, i2c_callback_args := 0,
        TWCR := 0, TWDR := 0, TWBR := 0, TWSR := 0 }).2.2 rfl).2.2.2.1
      (by decide) (by decide)
    rw [h]
    decide

/-- Folding a repeated TWINT set: or-ing 0x80 twice equals or-ing it once. -/
theorem or80_or80 (t : Nat) : (t ||| 0x80) ||| 0x80 = t ||| 0x80 := by
  rw [Nat.or_assoc]
  congr 1

/-- A whole accepted transaction with a prefix and no data, run up to (but not
including) the stop event: 1 address event plus `c` prefix events. -/
theorem run_tx_prefix_only (mem : Mem) (s : I2C) (c : Nat)
    (hs : s.i2c_state = .slaveaddr)
    (hp : s.i2c_prefix_ptr ≠ 0) (hplt : s.i2c_prefix_ptr < 65536)
    (hd : s.i2c_data_ptr = 0)
    (hc : s.i2c_prefix_count = c) (h1 : 1 ≤ c) (h2 : c ≤ 65535) :
    run_isr mem s (1 + c) =
      { st := { s with
          i2c_state := .stop,
          i2c_prefix_ptr := (s.i2c_prefix_ptr + c) % 65536,
          i2c_prefix_count := 0,
          TWCR := (s.TWCR &&& 0xDF) ||| 0x80,
          TWDR := mem ((s.i2c_prefix_ptr + (c - 1)) % 65536) },
        sent := s.i2c_devaddr ::
          (List.range c).map (fun i => mem ((s.i2c_prefix_ptr + i) % 65536)),
        fires := 0 } := by
  rw [run_isr_add]
  have h1r : run_isr mem s 1 =
      { st := { s with
          TWDR := s.i2c_devaddr,
          TWCR := (s.TWCR &&& 0xDF) ||| 0x80,
          i2c_state := .writepfx },
        sent := [s.i2c_devaddr], fires := 0 } := by
    simp [run_isr, twi_isr, hs, hp, hd]
  simp only [h1r]
  rw [run_isr_writepfx mem
      { s with
          TWDR := s.i2c_devaddr,
          TWCR := (s.TWCR &&& 0xDF) ||| 0x80,
          i2c_state := .writepfx }
      c h1 h2 rfl hc hplt]
  simp [hd, or80_or80]

/-- A whole accepted transaction with a prefix and data, run up to (but not
including) the stop event: 1 address event, `c1` prefix events, `c2` data
events. -/
theorem run_tx_prefix_data (mem : Mem) (s : I2C) (c1 c2 : Nat)
    (hs : s.i2c_state = .slaveaddr)
    (hp : s.i2c_prefix_ptr ≠ 0) (hplt : s.i2c_prefix_ptr < 65536)
    (hd : s.i2c_data_ptr ≠ 0) (hdlt : s.i2c_data_ptr < 65536)
    (hc1 : s.i2c_prefix_count = c1) (h11 : 1 ≤ c1) (h12 : c1 ≤ 65535)
    (hc2 : s.i2c_data_count = c2) (h21 : 1 ≤ c2) (h22 : c2 ≤ 65535) :
    run_isr mem s (1 + c1 + c2) =
      { st := { s with
          i2c_state := .stop,
          i2c_prefix_ptr := (s.i2c_prefix_ptr + c1) % 65536,
          i2c_prefix_count := 0,
          i2c_data_ptr := (s.i2c_data_ptr + c2) % 65536,
          i2c_data_count := 0,
          TWCR := (s.TWCR &&& 0xDF) ||| 0x80,
          TWDR := mem ((s.i2c_data_ptr + (c2 - 1)) % 65536) },
        sent := s.i2c_devaddr ::
          ((List.range c1).map (fun i => mem ((s.i2c_prefix_ptr + i) % 65536)) ++
           (List.range c2).map (fun i => mem ((s.i2c_data_ptr + i) % 65536))),
        fires := 0 } := by
  rw [run_isr_add]
  have h1r : run_isr mem s (1 + c1) =
      { st := { s with
          TWDR := mem ((s.i2c_prefix_ptr + (c1 - 1)) % 65536),
          TWCR := (s.TWCR &&& 0xDF) ||| 0x80,
          i2c_prefix_ptr := (s.i2c_prefix_ptr + c1) % 65536,
          i2c_prefix_count := 0,
          i2c_state := .writebyte },
        sent := s.i2c_devaddr ::
          (List.range c1).map (fun i => mem ((s.i2c_prefix_ptr + i) % 65536)),
        fires := 0 } := by
    rw [run_isr_add]
    have h0r : run_isr mem s 1 =
        { st := { s with
            TWDR := s.i2c_devaddr,
            TWCR := (s.TWCR &&& 0xDF) ||| 0x80,
            i2c_state := .writepfx },
          sent := [s.i2c_devaddr], fires := 0 } := by
      simp [run_isr, twi_isr, hs, hp]
    simp only [h0r]
    rw [run_isr_writepfx mem
        { s with
            TWDR := s.i2c_devaddr,
            TWCR := (s.TWCR &&& 0xDF) ||| 0x80,
            i2c_state := .writepfx }
        c1 h11 h12 rfl hc1 hplt]
    simp [hd, or80_or80]
  simp only [h1r]
  rw [run_isr_writebyte mem
      { s with
          TWDR := mem ((s.i2c_prefix_ptr + (c1 - 1)) % 65536),
          TWCR := (s.TWCR &&& 0xDF) ||| 0x80,
          i2c_prefix_ptr := (s.i2c_prefix_ptr + c1) % 65536,
          i2c_prefix_count := 0,
          i2c_state := .writebyte }
      c2 h21 h22 rfl hc2 hdlt]
  simp [or80_or80]

/-- A whole accepted transaction with data and no prefix, run up to (but not
including) the stop event: 1 address event plus `c` data events. -/
theorem run_tx_data_only (mem : Mem) (s : I2C) (c : Nat)
    (hs : s.i2c_state = .slaveaddr)
    (hp : s.i2c_prefix_ptr = 0)
    (hd : s.i2c_data_ptr ≠ 0) (hdlt : s.i2c_data_ptr < 65536)
    (hc : s.i2c_data_count = c) (h1 : 1 ≤ c) (h2 : c ≤ 65535) :
    run_isr mem s (1 + c) =
      { st := { s with
          i2c_state := .stop,
          i2c_data_ptr := (s.i2c_data_ptr + c) % 65536,
          i2c_data_count := 0,
          TWCR := (s.TWCR &&& 0xDF) ||| 0x80,
          TWDR := mem ((s.i2c_data_ptr + (c - 1)) % 65536) },
        sent := s.i2c_devaddr ::
          (List.range c).map (fun i => mem ((s.i2c_data_ptr + i) % 65536)),
        fires := 0 } := by
  rw [run_isr_add]
  have h1r : run_isr mem s 1 =
      { st := { s with
          TWDR := s.i2c_devaddr,
          TWCR := (s.TWCR &&& 0xDF) ||| 0x80,
          i2c_state := .writebyte },
        sent := [s.i2c_devaddr], fires := 0 } := by
    simp [run_isr, twi_isr, hs, hp, hd]
  simp only [h1r]
  rw [run_isr_writebyte mem
      { s with
          TWDR := s.i2c_devaddr,
          TWCR := (s.TWCR &&& 0xDF) ||| 0x80,
          i2c_state := .writebyte }
      c h1 h2 rfl hc hdlt]
  simp [or80_or80]

/-- A whole accepted transaction with neither prefix nor data: one address
event moves straight to `stop`. -/
theorem run_tx_none (mem : Mem) (s : I2C)
    (hs : s.i2c_state = .slaveaddr)
    (hp : s.i2c_prefix_ptr = 0) (hd : s.i2c_data_ptr = 0) :
    run_isr mem s 1 =
      { st := { s with
          i2c_state := .stop,
          TWCR := (s.TWCR &&& 0xDF) ||| 0x80,
          TWDR := s.i2c_devaddr },
        sent := [s.i2c_devaddr],
        fires := 0 } := by
  simp [run_isr, twi_isr, hs, hp, hd]

/-- The stop event: from `stop`, one event issues the stop condition, returns
the bus to idle and fires the completion callback. -/
theorem run_stop_step (mem : Mem) (s : I2C) (hs : s.i2c_state = .stop) :
    run_isr mem s 1 =
      { st := { s with
          i2c_state := .idle,
          TWCR := s.TWCR ||| 0x90 },
        sent := [], fires := 1 } := by
  simp [run_isr, twi_isr, hs]

/-- Claim C2 (amended): for every accepted transaction in which a null pointer
is submitted with length 0 and a non-null pointer with length at least 1
(prefix length at most 255, data length at most 65535), given continued
hardware events the interrupt handler fires the completion callback exactly
once, namely on the (prefixLen + dataLen + 2)-th hardware event after
acceptance (one address event, prefixLen prefix-byte events, dataLen data-byte
events, one stop event), no earlier, and the bus state is Idle afterwards. -/
theorem transaction_fires_once (mem : Mem) (s0 : I2C)
    (addr pfx pfx_len bytes bytes_len cb args : Nat) (ff : Bool)
    (hidle : s0.i2c_state = .idle)
    (hpp : pfx < 65536) (hbp : bytes < 65536)
    (hp0 : pfx = 0 → pfx_len = 0)
    (hp1 : pfx ≠ 0 → 1 ≤ pfx_len ∧ pfx_len ≤ 255)
    (hb0 : bytes = 0 → bytes_len = 0)
    (hb1 : bytes ≠ 0 → 1 ≤ bytes_len ∧ bytes_len ≤ 65535) :
    (OLED_i2c_tx_shed addr pfx pfx_len bytes bytes_len cb args ff s0).2 = true ∧
    (∀ k, k ≤ pfx_len + bytes_len + 1 →
      (run_isr mem (OLED_i2c_tx_shed addr pfx pfx_len bytes bytes_len cb args ff s0).1
        k).fires = 0) ∧
    (run_isr mem (OLED_i2c_tx_shed addr pfx pfx_len bytes bytes_len cb args ff s0).1
      (pfx_len + bytes_len + 2)).fires = 1 ∧
    (run_isr mem (OLED_i2c_tx_shed addr pfx pfx_len bytes bytes_len cb args ff s0).1
      (pfx_len + bytes_len + 2)).st.i2c_state = .idle := by
  have hacc : OLED_i2c_tx_shed addr pfx pfx_len bytes bytes_len cb args ff s0
      = ({ i2c_state := .slaveaddr,
           i2c_devaddr := (addr * 2) % 256,
           i2c_prefix_ptr := pfx,
           i2c_prefix_count := pfx_len,
           i2c_data_ptr := bytes,
           i2c_data_count := bytes_len,
           i2c_is_fastfail := ff,
           i2c_callback := cb,
           i2c_callback_args := args,
           TWCR := s0.TWCR ||| 0xA0,
           TWDR := s0.TWDR,
           TWBR := s0.TWBR,
           TWSR := s0.TWSR }, true) := by
    simp [OLED_i2c_tx_shed, hidle]
  simp only [hacc]
  have key : (run_isr mem
        { i2c_state := .slaveaddr,
          i2c_devaddr := (addr * 2) % 256,
          i2c_prefix_ptr := pfx,
          i2c_prefix_count := pfx_len,
          i2c_data_ptr := bytes,
          i2c_data_count := bytes_len,
          i2c_is_fastfail := ff,
          i2c_callback := cb,
          i2c_callback_args := args,
          TWCR := s0.TWCR ||| 0xA0,
          TWDR := s0.TWDR,
          TWBR := s0.TWBR,
          TWSR := s0.TWSR }
        (pfx_len + bytes_len + 1)).fires = 0 ∧
      (run_isr mem
        { i2c_state := .slaveaddr,
          i2c_devaddr := (addr * 2) % 256,
          i2c_prefix_ptr := pfx,
          i2c_prefix_count := pfx_len,
          i2c_data_ptr := bytes,
          i2c_data_count := bytes_len,
          i2c_is_fastfail := ff,
          i2c_callback := cb,
          i2c_callback_args := args,
          TWCR := s0.TWCR ||| 0xA0,
          TWDR := s0.TWDR,
          TWBR := s0.TWBR,
          TWSR := s0.TWSR }
        (pfx_len + bytes_len + 1)).st.i2c_state = .stop := by
    by_cases hpz : pfx = 0
    · by_cases hbz : bytes = 0
      · have e1 : pfx_len = 0 := hp0 hpz
        have e2 : bytes_len = 0 := hb0 hbz
        subst e1
        subst e2
        norm_num
        rw [run_tx_none mem _ rfl hpz hbz]
        simp
      · have e1 : pfx_len = 0 := hp0 hpz
        obtain ⟨hbl, hbu⟩ := hb1 hbz
        subst e1
        have h : (0 : Nat) + bytes_len + 1 = 1 + bytes_len := by omega
        rw [h]
        rw [run_tx_data_only mem _ bytes_len rfl hpz hbz hbp rfl hbl hbu]
        exact ⟨rfl, rfl⟩
    · by_cases hbz : bytes = 0
      · have e2 : bytes_len = 0 := hb0 hbz
        obtain ⟨hpl, hpu⟩ := hp1 hpz
        subst e2
        have h : pfx_len + 0 + 1 = 1 + pfx_len := by omega
        rw [h]
        rw [run_tx_prefix_only mem _ pfx_len rfl hpz hpp hbz rfl hpl (by omega)]
        exact ⟨rfl, rfl⟩
      · obtain ⟨hpl, hpu⟩ := hp1 hpz
        obtain ⟨hbl, hbu⟩ := hb1 hbz
        have h : pfx_len + bytes_len + 1 = 1 + pfx_len + bytes_len := by omega
        rw [h]
        rw [run_tx_prefix_data mem _ pfx_len bytes_len rfl hpz hpp hbz hbp rfl
          hpl (by omega) rfl hbl hbu]
        simp
  refine ⟨trivial, ?_, ?_, ?_⟩
  · intro k hk
    have hmono := run_isr_fires_mono mem
      { i2c_state := .slaveaddr,
        i2c_devaddr := (addr * 2) % 256,
        i2c_prefix_ptr := pfx,
        i2c_prefix_count := pfx_len,
        i2c_data_ptr := bytes,
        i2c_data_count := bytes_len,
        i2c_is_fastfail := ff,
        i2c_callback := cb,
        i2c_callback_args := args,
        TWCR := s0.TWCR ||| 0xA0,
        TWDR := s0.TWDR,
        TWBR := s0.TWBR,
        TWSR := s0.TWSR } hk
    omega
  · have h2 : pfx_len + bytes_len + 2 = (pfx_len + bytes_len + 1) + 1 := by omega
    rw [h2, run_isr_add]
    rw [run_stop_step mem _ key.2]
    simp [key.1]
  · have h2 : pfx_len + bytes_len + 2 = (pfx_len + bytes_len + 1) + 1 := by omega
    rw [h2, run_isr_add]
    rw [run_stop_step mem _ key.2]

/-- A concrete all-zero idle driver state, used to instantiate theorems. -/
def I2C0 : I2C :=
  { i2c_state := .idle, i2c_devaddr := 0, i2c_prefix_ptr := 0,
    i2c_prefix_count := 0, i2c_data_ptr := 0, i2c_data_count := 0,
    i2c_is_fastfail := false, i2c_callback := 0, i2c_callback_args := 0,
    TWCR := 0, TWDR := 0, TWBR := 0, TWSR := 0 }

/-- Witness for `transaction_fires_once`: an accepted transaction with a
1-byte prefix and 2 data bytes fires its callback exactly at the 5th event
and never before, ending idle. -/
theorem transaction_fires_once_witness :
    (run_isr (fun a => a % 256)
      (OLED_i2c_tx_shed 60 256 1 512 2 7 9 true I2C0).1 4).fires = 0 ∧
    (run_isr (fun a => a % 256)
      (OLED_i2c_tx_shed 60 256 1 512 2 7 9 true I2C0).1 5).fires = 1 ∧
    (run_isr (fun a => a % 256)
      (OLED_i2c_tx_shed 60 256 1 512 2 7 9 true I2C0).1 5).st.i2c_state
      = I2C_State_e.idle := by
  have h := transaction_fires_once (fun a => a % 256) I2C0 60 256 1 512 2 7 9 true
    rfl (by decide) (by decide) (by decide) (by decide) (by decide) (by decide)
  exact ⟨h.2.1 4 (by decide), h.2.2.1, h.2.2.2⟩

/-- Counterexample to claim C2 as stated: a transaction accepted with a
non-null prefix pointer of length 0 (and no data) does not fire its callback
on event prefixLen + dataLen + 2 = 2; after 2 events nothing has fired and the
handler is still in WritePrefix (the count wrapped instead). -/
theorem transaction_fires_once_counterexample :
    (OLED_i2c_tx_shed 60 256 0 0 0 7 9 true I2C0).2 = true ∧
    (run_isr (fun a => a % 256)
      (OLED_i2c_tx_shed 60 256 0 0 0 7 9 true I2C0).1 2).fires = 0 ∧
    (run_isr (fun a => a % 256)
      (OLED_i2c_tx_shed 60 256 0 0 0 7 9 true I2C0).1 2).st.i2c_state
      = I2C_State_e.writepfx := by
  refine ⟨rfl, rfl, rfl⟩

/-- Shifting a window of byte reads by one: the byte at `p` followed by the
`c`-byte window starting at `p + 1` is the `(c+1)`-byte window at `p`
(all addresses taken modulo 2^16). -/
theorem byte_window_shift (mem : Mem) (p c : Nat) (hp : p < 65536) :
    mem p :: (List.range c).map (fun i => mem ((p + 1 + i) % 65536))
      = (List.range (c + 1)).map (fun i => mem ((p + i) % 65536)) := by
  have h0 : (p + 0) % 65536 = p := by omega
  have htail : List.map (fun i => mem ((p + 1 + i) % 65536)) (List.range c)
      = List.map ((fun i => mem ((p + i) % 65536)) ∘ Nat.succ) (List.range c) := by
    refine List.map_congr_left ?_
    intro i _
    simp only [Function.comp_apply]
    exact congrArg mem (by omega)
  rw [List.range_succ_eq_map, List.map_cons, List.map_map, h0, htail]

/-- Claim C9 (amended): if a submission is accepted with a non-null prefix
pointer and prefix length 0, or a non-null data pointer and data length 0,
the interrupt handler decrements the corresponding remaining count from 0 so
that it wraps modulo 2^16 in both cases (the prefix count is stored in a
pointer-sized variable, so it too wraps modulo 2^16, not 2^8), and the handler
transmits 65536 bytes from that pointer before reaching Stop, without firing
the callback; hence the prefixLen + dataLen + 2 completion guarantee requires
every non-null pointer to be submitted with length at least 1. -/
theorem zero_length_wrap (mem : Mem) (s0 : I2C) (addr pfx bytes cb args : Nat)
    (ff : Bool) (hidle : s0.i2c_state = .idle) :
    (pfx ≠ 0 → pfx < 65536 →
      (run_isr mem (OLED_i2c_tx_shed addr pfx 0 0 0 cb args ff s0).1
        2).st.i2c_prefix_count = 65535 ∧
      (run_isr mem (OLED_i2c_tx_shed addr pfx 0 0 0 cb args ff s0).1
        (1 + 65536)).st.i2c_state = .stop ∧
      (run_isr mem (OLED_i2c_tx_shed addr pfx 0 0 0 cb args ff s0).1
        (1 + 65536)).sent =
        (addr * 2) % 256 ::
          (List.range 65536).map (fun i => mem ((pfx + i) % 65536)) ∧
      (run_isr mem (OLED_i2c_tx_shed addr pfx 0 0 0 cb args ff s0).1
        (1 + 65536)).fires = 0) ∧
    (bytes ≠ 0 → bytes < 65536 →
      (run_isr mem (OLED_i2c_tx_shed addr 0 0 bytes 0 cb args ff s0).1
        2).st.i2c_data_count = 65535 ∧
      (run_isr mem (OLED_i2c_tx_shed addr 0 0 bytes 0 cb args ff s0).1
        (1 + 65536)).st.i2c_state = .stop ∧
      (run_isr mem (OLED_i2c_tx_shed addr 0 0 bytes 0 cb args ff s0).1
        (1 + 65536)).sent =
        (addr * 2) % 256 ::
          (List.range 65536).map (fun i => mem ((bytes + i) % 65536)) ∧
      (run_isr mem (OLED_i2c_tx_shed addr 0 0 bytes 0 cb args ff s0).1
        (1 + 65536)).fires = 0) := by
  constructor
  · intro hpz hplt
    have hacc : OLED_i2c_tx_shed addr pfx 0 0 0 cb args ff s0
        = ({ i2c_state := .slaveaddr, i2c_devaddr := (addr * 2) % 256,
             i2c_prefix_ptr := pfx, i2c_prefix_count := 0,
             i2c_data_ptr := 0, i2c_data_count := 0,
             i2c_is_fastfail := ff, i2c_callback := cb, i2c_callback_args := args,
             TWCR := s0.TWCR ||| 0xA0, TWDR := s0.TWDR, TWBR := s0.TWBR,
             TWSR := s0.TWSR }, true) := by
      simp [OLED_i2c_tx_shed, hidle]
    simp only [hacc]
    have h2 : run_isr mem
        { i2c_state := .slaveaddr, i2c_devaddr := (addr * 2) % 256,
          i2c_prefix_ptr := pfx, i2c_prefix_count := 0,
          i2c_data_ptr := 0, i2c_data_count := 0,
          i2c_is_fastfail := ff, i2c_callback := cb, i2c_callback_args := args,
          TWCR := s0.TWCR ||| 0xA0, TWDR := s0.TWDR, TWBR := s0.TWBR,
          TWSR := s0.TWSR } 2 =
        { st :=
            { i2c_state := .writepfx, i2c_devaddr := (addr * 2) % 256,
              i2c_prefix_ptr := (pfx + 1) % 65536, i2c_prefix_count := 65535,
              i2c_data_ptr := 0, i2c_data_count := 0,
              i2c_is_fastfail := ff, i2c_callback := cb, i2c_callback_args := args,
              TWCR := ((s0.TWCR ||| 0xA0) &&& 0xDF) ||| 0x80, TWDR := mem pfx,
              TWBR := s0.TWBR, TWSR := s0.TWSR },
          sent := [(addr * 2) % 256, mem pfx], fires := 0 } := by
      simp [run_isr, twi_isr, hpz, or80_or80]
    have hsplit : (1 : Nat) + 65536 = 2 + 65535 := by omega
    rw [hsplit, run_isr_add, h2]
    rw [run_isr_writepfx mem
        { i2c_state := .writepfx, i2c_devaddr := (addr * 2) % 256,
          i2c_prefix_ptr := (pfx + 1) % 65536, i2c_prefix_count := 65535,
          i2c_data_ptr := 0, i2c_data_count := 0,
          i2c_is_fastfail := ff, i2c_callback := cb, i2c_callback_args := args,
          TWCR := ((s0.TWCR ||| 0xA0) &&& 0xDF) ||| 0x80, TWDR := mem pfx,
          TWBR := s0.TWBR, TWSR := s0.TWSR }
        65535 (by omega) (by omega) rfl rfl (Nat.mod_lt _ (by norm_num))]
    refine ⟨rfl, rfl, ?_, rfl⟩
    simp only [List.cons_append, List.nil_append]
    refine congrArg (List.cons ((addr * 2) % 256)) ?_
    have hmid : List.map (fun i => mem (((pfx + 1) % 65536 + i) % 65536))
        (List.range 65535)
        = List.map (fun i => mem ((pfx + 1 + i) % 65536)) (List.range 65535) := by
      refine List.map_congr_left ?_
      intro i _
      exact congrArg mem (by omega)
    rw [hmid]
    exact byte_window_shift mem pfx 65535 hplt
  · intro hbz hblt
    have hacc : OLED_i2c_tx_shed addr 0 0 bytes 0 cb args ff s0
        = ({ i2c_state := .slaveaddr, i2c_devaddr := (addr * 2) % 256,
             i2c_prefix_ptr := 0, i2c_prefix_count := 0,
             i2c_data_ptr := bytes, i2c_data_count := 0,
             i2c_is_fastfail := ff, i2c_callback := cb, i2c_callback_args := args,
             TWCR := s0.TWCR ||| 0xA0, TWDR := s0.TWDR, TWBR := s0.TWBR,
             TWSR := s0.TWSR }, true) := by
      simp [OLED_i2c_tx_shed, hidle]
    simp only [hacc]
    have h2 : run_isr mem
        { i2c_state := .slaveaddr, i2c_devaddr := (addr * 2) % 256,
          i2c_prefix_ptr := 0, i2c_prefix_count := 0,
          i2c_data_ptr := bytes, i2c_data_count := 0,
          i2c_is_fastfail := ff, i2c_callback := cb, i2c_callback_args := args,
          TWCR := s0.TWCR ||| 0xA0, TWDR := s0.TWDR, TWBR := s0.TWBR,
          TWSR := s0.TWSR } 2 =
        { st :=
            { i2c_state := .writebyte, i2c_devaddr := (addr * 2) % 256,
              i2c_prefix_ptr := 0, i2c_prefix_count := 0,
              i2c_data_ptr := (bytes + 1) % 65536, i2c_data_count := 65535,
              i2c_is_fastfail := ff, i2c_callback := cb, i2c_callback_args := args,
              TWCR := ((s0.TWCR ||| 0xA0) &&& 0xDF) ||| 0x80, TWDR := mem bytes,
              TWBR := s0.TWBR, TWSR := s0.TWSR },
          sent := [(addr * 2) % 256, mem bytes], fires := 0 } := by
      simp [run_isr, twi_isr, hbz, or80_or80]
    have hsplit : (1 : Nat) + 65536 = 2 + 65535 := by omega
    rw [hsplit, run_isr_add, h2]
    rw [run_isr_writebyte mem
        { i2c_state := .writebyte, i2c_devaddr := (addr * 2) % 256,
          i2c_prefix_ptr := 0, i2c_prefix_count := 0,
          i2c_data_ptr := (bytes + 1) % 65536, i2c_data_count := 65535,
          i2c_is_fastfail := ff, i2c_callback := cb, i2c_callback_args := args,
          TWCR := ((s0.TWCR ||| 0xA0) &&& 0xDF) ||| 0x80, TWDR := mem bytes,
          TWBR := s0.TWBR, TWSR := s0.TWSR }
        65535 (by omega) (by omega) rfl rfl (Nat.mod_lt _ (by norm_num))]
    refine ⟨rfl, rfl, ?_, rfl⟩
    simp only [List.cons_append, List.nil_append]
    refine congrArg (List.cons ((addr * 2) % 256)) ?_
    have hmid : List.map (fun i => mem (((bytes + 1) % 65536 + i) % 65536))
        (List.range 65535)
        = List.map (fun i => mem ((bytes + 1 + i) % 65536)) (List.range 65535) := by
      refine List.map_congr_left ?_
      intro i _
      exact congrArg mem (by omega)
    rw [hmid]
    exact byte_window_shift mem bytes 65535 hblt

/-- Witness for `zero_length_wrap` at concrete inputs: both the prefix count
and the data count wrap to 65535, and the zero-length-prefix transaction only
reaches `stop` after 1 + 65536 events. -/
theorem zero_length_wrap_witness :
    (run_isr (fun a => a % 256) (OLED_i2c_tx_shed 60 300 0 0 0 7 9 true I2C0).1
      2).st.i2c_prefix_count = 65535 ∧
    (run_isr (fun a => a % 256) (OLED_i2c_tx_shed 60 300 0 0 0 7 9 true I2C0).1
      65537).st.i2c_state = I2C_State_e.stop ∧
    (run_isr (fun a => a % 256) (OLED_i2c_tx_shed 60 0 0 300 0 7 9 true I2C0).1
      2).st.i2c_data_count = 65535 := by
  have h := zero_length_wrap (fun a => a % 256) I2C0 60 300 300 7 9 true rfl
  exact ⟨(h.1 (by decide) (by decide)).1, (h.1 (by decide) (by decide)).2.1,
    (h.2 (by decide) (by decide)).1⟩

set_option maxRecDepth 20000 in
/-- Counterexample to claim C9 as stated: the zero-length-prefix wrap is NOT
modulo 2^8 with 256 bytes transmitted; after 1 + 256 events the handler is
still in WritePrefix with 65280 bytes left (the count, stored in a 16-bit
pointer variable, wrapped modulo 2^16). -/
theorem zero_length_wrap_counterexample :
    (run_isr (fun a => a % 256) (OLED_i2c_tx_shed 60 300 0 0 0 7 9 true I2C0).1
      257).st.i2c_state = I2C_State_e.writepfx ∧
    (run_isr (fun a => a % 256) (OLED_i2c_tx_shed 60 300 0 0 0 7 9 true I2C0).1
      257).st.i2c_prefix_count = 65280 := by
  constructor
  · decide
  · decide

/-- The command byte arrays of src/oled.c (lines 37-53), as lists of bytes.
`_i2c_cmd_setpage` byte 5 is the patched page-select byte (initially 0xB0);
`_i2c_cmd_datapfx` is the single data-mode marker byte 0x40. -/
def _i2c_cmd_init_bytes : List Nat :=
  [0x80, 0x8D, 0x80, 0x14, 0x80, 0xAF, 0x80, 0x81, 0x80, 0xFF, 0x80, 0xA7]

/-- Initial contents of `_i2c_cmd_setpage` (src/oled.c lines 44-47). -/
def _i2c_cmd_setpage_bytes : List Nat := [0x80, 0x00, 0x80, 0x10, 0x80, 0xB0]

/-- Initial contents of `_i2c_cmd_setbrightness` (src/oled.c lines 49-51). -/
def _i2c_cmd_setbrightness_bytes : List Nat := [0x80, 0x81, 0x80, 0xFF]

/-- Data-memory addresses of the static arrays and of the OLED struct.  The
linker would choose concrete nonzero, pairwise disjoint addresses; we fix
representative ones inside the AVR data space. -/
def CMD_INIT_ADDR : Nat := 0x100

/-- Address of `_i2c_cmd_setpage` (6 bytes; byte 5 is patched per page). -/
def CMD_SETPAGE_ADDR : Nat := 0x110

/-- Address of `_i2c_cmd_setbrightness` (4 bytes; byte 3 is the level). -/
def CMD_SETBRIGHTNESS_ADDR : Nat := 0x118

/-- Address of `_i2c_cmd_datapfx` (1 byte, 0x40). -/
def CMD_DATAPREFIX_ADDR : Nat := 0x11C

/-- Address passed as the callback argument (`&oled`); never dereferenced in
the model, since there is a single display instance. -/
def OLED_STRUCT_ADDR : Nat := 0x60

/-- Identifiers standing for the four callback function pointers of oled.c. -/
def CB_EMPTY : Nat := 0

/-- Identifier of `OLED_cbk_unlock`. -/
def CB_UNLOCK : Nat := 1

/-- Identifier of `OLED_cbk_writepage`. -/
def CB_WRITEPAGE : Nat := 2

/-- Identifier of `OLED_cbk_setwritepage`. -/
def CB_SETWRITEPAGE : Nat := 3

/-- The `OLED` struct (fields as used by src/oled.c; declared in the missing
header).  `busy_lock` follows the source convention set in `__OLED_init`
(line 246): nonzero = unlocked/free, 0 = held.  `frame_buffer` is the address
of the externally owned buffer. -/
structure OLED where
  width : Nat
  height : Nat
  frame_buffer : Nat
  busy_lock : Nat
  i2c_addr : Nat
  cur_page : Nat
  num_pages : Nat
deriving DecidableEq

/-- Modelled from the spec: `OLED_unlock` lives in the missing header.  The
release restores the free (nonzero) value of the advisory flag. -/
def OLED_unlock (o : OLED) : OLED := { o with busy_lock := 1 }

/-- Modelled from the spec: `OLED_spinlock` lives in the missing header.  It
polls until the flag is free (nonzero) and then atomically claims it (sets 0).
In this single-threaded model a spin with the lock already held would spin
forever, which is modelled as `none`. -/
def OLED_spinlock (o : OLED) : Option OLED :=
  if o.busy_lock ≠ 0 then some { o with busy_lock := 0 } else none

/-- The whole machine state: the I2C driver state, the display struct and the
data memory (command arrays and frame buffer live in `mem`). -/
structure Sys where
  i2c : I2C
  oled : OLED
  mem : Mem

/-- `OLED_cbk_empty` (src/oled.c lines 169-172): does nothing. -/
def OLED_cbk_empty (sys : Sys) : Option Sys := some sys

/-- `OLED_cbk_unlock` (src/oled.c lines 176-180): unlocks the oled lock. -/
def OLED_cbk_unlock (sys : Sys) : Option Sys :=
  some { sys with oled := OLED_unlock sys.oled }

/-- `OLED_cbk_writepage` (src/oled.c lines 187-201).  If all pages are done,
unlock and stop.  Otherwise compute the line pointer for the current page
(16-bit pointer arithmetic), advance the page cursor (a uint8_t) and submit
the page-transfer transaction (1-byte 0x40 prefix, `width` data bytes,
completion `OLED_cbk_setwritepage`), spinning on rejection; a rejection in
this single-threaded model would spin forever (`none`), but cannot occur
since the bus went idle just before the callback runs. -/
def OLED_cbk_writepage (sys : Sys) : Option Sys :=
  if sys.oled.cur_page ≥ sys.oled.num_pages then
    some { sys with oled := OLED_unlock sys.oled }
  else
    let lineptr := (sys.oled.frame_buffer + sys.oled.cur_page * sys.oled.width) % 65536
    let oled' := { sys.oled with cur_page := (sys.oled.cur_page + 1) % 256 }
    let r := OLED_i2c_tx_shed sys.oled.i2c_addr CMD_DATAPREFIX_ADDR 1
      lineptr sys.oled.width CB_SETWRITEPAGE OLED_STRUCT_ADDR true sys.i2c
    if r.2 then some { sys with i2c := r.1, oled := oled' } else none

/-- `OLED_cbk_setwritepage` (src/oled.c lines 204-213).  Patch the last byte
of the reusable select-page command to `0xB0 | cur_page` and submit the
6-byte select-page transaction with completion `OLED_cbk_writepage`,
spinning on rejection (modelled as `none`, as above). -/
def OLED_cbk_setwritepage (sys : Sys) : Option Sys :=
  let mem' := mupd sys.mem (CMD_SETPAGE_ADDR + 5) (0xB0 ||| sys.oled.cur_page)
  let r := OLED_i2c_tx_shed sys.oled.i2c_addr CMD_SETPAGE_ADDR 6 0 0
    CB_WRITEPAGE OLED_STRUCT_ADDR true sys.i2c
  if r.2 then some { sys with mem := mem', i2c := r.1 } else none

/-- Dispatch on the stored callback identifier; the program only ever installs
the four callbacks above. -/
def cbk_dispatch (sys : Sys) : Option Sys :=
  if sys.i2c.i2c_callback = CB_EMPTY then OLED_cbk_empty sys
  else if sys.i2c.i2c_callback = CB_UNLOCK then OLED_cbk_unlock sys
  else if sys.i2c.i2c_callback = CB_WRITEPAGE then OLED_cbk_writepage sys
  else if sys.i2c.i2c_callback = CB_SETWRITEPAGE then OLED_cbk_setwritepage sys
  else some sys

/-- One hardware event of the whole system: the interrupt handler runs once;
if it invoked the completion callback (stop/idle case, after setting the bus
state to idle), the callback body runs within the same interrupt, possibly
submitting the next chained transaction.  Returns the byte written to `TWDR`
during the event, if any. -/
def sysStep (sys : Sys) : Option (Sys × Option Nat) :=
  let o := twi_isr sys.mem sys.i2c
  let sys' : Sys := { sys with i2c := o.st }
  if o.fired then (cbk_dispatch sys').map (fun s2 => (s2, o.sent))
  else some (sys', o.sent)

/-- Drive the whole system for `n` hardware events, collecting the bytes
written to `TWDR`; `none` if some spin loop diverges. -/
def runSys : Nat → Sys → Option (Sys × List Nat)
  | 0, sys => some (sys, [])
  | n + 1, sys =>
      (sysStep sys).bind fun p =>
        (runSys n p.1).map fun q => (q.1, p.2.toList ++ q.2)

/-- `OLED_refresh` (src/oled.c lines 229-236): spin-acquire the lock, reset
the page cursor to 0 and start the chain by calling `OLED_cbk_setwritepage`
directly; the lock is released later, in the last of the chained callbacks. -/
def OLED_refresh (sys : Sys) : Option Sys :=
  (OLED_spinlock sys.oled).bind fun o1 =>
    OLED_cbk_setwritepage { sys with oled := { o1 with cur_page := 0 } }

/-- `OLED_cmd_setbrightness` (src/oled.c lines 217-226): patch the last byte
of the brightness command, spin-acquire the lock, and submit the 4-byte
command with completion `OLED_cbk_unlock`, spinning on rejection. -/
def OLED_cmd_setbrightness (sys : Sys) (level : Nat) : Option Sys :=
  let mem' := mupd sys.mem (CMD_SETBRIGHTNESS_ADDR + 3) (level % 256)
  (OLED_spinlock sys.oled).bind fun o1 =>
    let r := OLED_i2c_tx_shed o1.i2c_addr CMD_SETBRIGHTNESS_ADDR 4 0 0
      CB_UNLOCK OLED_STRUCT_ADDR true sys.i2c
    if r.2 then some { i2c := r.1, oled := o1, mem := mem' } else none

/-- `I2C_init` (src/oled.c lines 75-96): reset the FSM to idle, derive TWBR
and the prescaler from the bus frequency (`twbr = F_CPU/(2*hz) - 8` in uint32
arithmetic, then divide by 4 while it exceeds 255, at most 4 times), and
enable the TWI module (`TWCR = (1<<TWEN)|(1<<TWIE) = 0x05`). -/
def I2C_init (f_cpu hz_freq : Nat) (s : I2C) : I2C :=
  let q := (f_cpu / (2 * hz_freq)) % 4294967296
  let twbr0 := (q + 4294967296 - 8) % 4294967296
  let sel :=
    if twbr0 ≤ 255 then (twbr0, 0)
    else if twbr0 / 4 ≤ 255 then (twbr0 / 4, 1)
    else if twbr0 / 16 ≤ 255 then (twbr0 / 16, 2)
    else if twbr0 / 64 ≤ 255 then (twbr0 / 64, 3)
    else (twbr0 / 256, 4)
  { s with
      i2c_state := .idle,
      TWBR := sel.1 % 256,
      TWSR := (s.TWSR &&& 0xFC) ||| (sel.2 &&& 0x03),
      TWCR := 0x05 }

/-- `__OLED_init` (src/oled.c lines 241-262): fill in the display struct
(width, height, buffer, lock initially 1 = unlocked, bus address, page cursor
0 and `num_pages = 8`), initialise the bus, and schedule the bring-up command
sequence (12 bytes, empty completion); `OLED_EBUSY` if that submission is
rejected. -/
def __OLED_init (sys : Sys) (f_cpu : Nat) (width height frame_buffer : Nat)
    (i2c_freq_hz i2c_addr : Nat) : Sys × OLED_err :=
  let oled0 : OLED :=
    { width := width, height := height, frame_buffer := frame_buffer,
      busy_lock := 1, i2c_addr := i2c_addr, cur_page := 0, num_pages := 8 }
  let s1 := I2C_init f_cpu i2c_freq_hz sys.i2c
  let r := OLED_i2c_tx_shed i2c_addr CMD_INIT_ADDR 12 0 0 CB_EMPTY 0 true s1
  if r.2 then ({ i2c := r.1, oled := oled0, mem := sys.mem }, OLED_EOK)
  else ({ i2c := r.1, oled := oled0, mem := sys.mem }, OLED_EBUSY)

/-- A concrete all-zero display struct, used to instantiate theorems. -/
def OLED0 : OLED :=
  { width := 0, height := 0, frame_buffer := 0, busy_lock := 0,
    i2c_addr := 0, cur_page := 0, num_pages := 0 }

/-- A concrete system state with idle bus and zeroed memory. -/
def Sys0 : Sys := { i2c := I2C0, oled := OLED0, mem := fun _ => 0 }

/-- Claim C6 (amended): for every initialization, the resulting display's
page count is the constant 8 regardless of the supplied height (the source
hardcodes `oled->num_pages = 8`); it coincides with height/8 only for heights
64..71. -/
theorem init_num_pages (sys : Sys) (f_cpu width height frame_buffer
    i2c_freq_hz i2c_addr : Nat) :
    ((__OLED_init sys f_cpu width height frame_buffer i2c_freq_hz
      i2c_addr).1).oled.num_pages = 8 := by
  simp [__OLED_init, OLED_i2c_tx_shed, I2C_init]

/-- Counterexample to claim C6 as stated: initializing a 128x32 display
yields `num_pages = 8`, not `32 / 8 = 4`. -/
theorem init_num_pages_counterexample :
    ((__OLED_init Sys0 16000000 128 32 1024 200000 60).1).oled.num_pages = 8 ∧
    ¬ ((__OLED_init Sys0 16000000 128 32 1024 200000 60).1).oled.num_pages
        = 32 / 8 := by
  constructor
  · decide
  · decide

/-- Claim C5 (amended): a refresh cannot be initiated while the lock is
already held (the spin-acquire at entry to `OLED_refresh` would spin
forever); instead `OLED_refresh` itself acquires the lock at entry, and the
page-cursor/frame-transfer sequence then runs under that lock: after a
successful start the lock is held, the cursor is 0 and the select-page
transaction is armed; and during the chain (whose callbacks are
`OLED_cbk_writepage`/`OLED_cbk_setwritepage`) a hardware event releases the
lock only when it fires the terminal `OLED_cbk_writepage` with all pages
done, leaving the bus idle. -/
theorem refresh_lock_discipline (sys : Sys) :
    (sys.oled.busy_lock = 0 → OLED_refresh sys = none) ∧
    (sys.oled.busy_lock ≠ 0 → sys.i2c.i2c_state = .idle →
      (OLED_refresh sys).isSome = true) ∧
    (∀ s1, OLED_refresh sys = some s1 →
      s1.oled.busy_lock = 0 ∧ s1.oled.cur_page = 0 ∧
      s1.i2c.i2c_state = .slaveaddr ∧ s1.i2c.i2c_callback = CB_WRITEPAGE) ∧
    (∀ sys2 out, sys.oled.busy_lock = 0 →
      (sys.i2c.i2c_callback = CB_WRITEPAGE ∨
        sys.i2c.i2c_callback = CB_SETWRITEPAGE) →
      sysStep sys = some (sys2, out) → sys2.oled.busy_lock ≠ 0 →
      sys.i2c.i2c_callback = CB_WRITEPAGE ∧
      sys.oled.num_pages ≤ sys.oled.cur_page ∧
      sys2.i2c.i2c_state = .idle) := by
  refine ⟨?_, ?_, ?_, ?_⟩
  · intro h
    simp [OLED_refresh, OLED_spinlock, h]
  · intro hl hidle
    simp [OLED_refresh, OLED_spinlock, hl, OLED_cbk_setwritepage,
      OLED_i2c_tx_shed, hidle]
  · intro s1 h
    by_cases hl : sys.oled.busy_lock = 0
    · simp [OLED_refresh, OLED_spinlock, hl] at h
    · by_cases hidle : sys.i2c.i2c_state = .idle
      · simp [OLED_refresh, OLED_spinlock, hl, OLED_cbk_setwritepage,
          OLED_i2c_tx_shed, hidle] at h
        subst h
        exact ⟨rfl, rfl, rfl, rfl⟩
      · simp [OLED_refresh, OLED_spinlock, hl, OLED_cbk_setwritepage,
          OLED_i2c_tx_shed, hidle] at h
  · intro sys2 out hl hcb hstep hl2
    cases hst : sys.i2c.i2c_state with
    | slaveaddr =>
        simp [sysStep, twi_isr, hst] at hstep
        rcases hstep with ⟨h1, h2⟩
        rw [← h1] at hl2
        exact absurd hl hl2
    | writepfx =>
        simp [sysStep, twi_isr, hst] at hstep
        rcases hstep with ⟨h1, h2⟩
        rw [← h1] at hl2
        exact absurd hl hl2
    | writebyte =>
        simp [sysStep, twi_isr, hst] at hstep
        rcases hstep with ⟨h1, h2⟩
        rw [← h1] at hl2
        exact absurd hl hl2
    | idle =>
        rcases hcb with hcb | hcb
        · by_cases hcp : sys.oled.cur_page ≥ sys.oled.num_pages
          · simp [sysStep, twi_isr, hst, cbk_dispatch, hcb, CB_WRITEPAGE,
              CB_EMPTY, CB_UNLOCK, OLED_cbk_writepage, hcp] at hstep
            rcases hstep with ⟨h1, h2⟩
            exact ⟨hcb, hcp, by rw [← h1]⟩
          · simp [sysStep, twi_isr, hst, cbk_dispatch, hcb, CB_WRITEPAGE,
              CB_EMPTY, CB_UNLOCK, OLED_cbk_writepage, hcp,
              OLED_i2c_tx_shed] at hstep
            rcases hstep with ⟨h1, h2⟩
            rw [← h1] at hl2
            exact absurd hl hl2
        · simp [sysStep, twi_isr, hst, cbk_dispatch, hcb, CB_SETWRITEPAGE,
            CB_EMPTY, CB_UNLOCK, CB_WRITEPAGE, OLED_cbk_setwritepage,
            OLED_i2c_tx_shed] at hstep
          rcases hstep with ⟨h1, h2⟩
          rw [← h1] at hl2
          exact absurd hl hl2
    | stop =>
        rcases hcb with hcb | hcb
        · by_cases hcp : sys.oled.cur_page ≥ sys.oled.num_pages
          · simp [sysStep, twi_isr, hst, cbk_dispatch, hcb, CB_WRITEPAGE,
              CB_EMPTY, CB_UNLOCK, OLED_cbk_writepage, hcp] at hstep
            rcases hstep with ⟨h1, h2⟩
            exact ⟨hcb, hcp, by rw [← h1]⟩
          · simp [sysStep, twi_isr, hst, cbk_dispatch, hcb, CB_WRITEPAGE,
              CB_EMPTY, CB_UNLOCK, OLED_cbk_writepage, hcp,
              OLED_i2c_tx_shed] at hstep
            rcases hstep with ⟨h1, h2⟩
            rw [← h1] at hl2
            exact absurd hl hl2
        · simp [sysStep, twi_isr, hst, cbk_dispatch, hcb, CB_SETWRITEPAGE,
            CB_EMPTY, CB_UNLOCK, CB_WRITEPAGE, OLED_cbk_setwritepage,
            OLED_i2c_tx_shed] at hstep
          rcases hstep with ⟨h1, h2⟩
          rw [← h1] at hl2
          exact absurd hl hl2

/-- A display struct with 8 pages of width 1 whose lock is held (0). -/
def OLEDHeld : OLED :=
  { width := 1, height := 8, frame_buffer := 1024, busy_lock := 0,
    i2c_addr := 60, cur_page := 0, num_pages := 8 }

/-- System with the lock held by someone and an idle bus. -/
def SysHeld : Sys := { i2c := I2C0, oled := OLEDHeld, mem := fun _ => 0 }

/-- System with the lock free and an idle bus. -/
def SysFree : Sys :=
  { i2c := I2C0, oled := { OLEDHeld with busy_lock := 1 }, mem := fun _ => 0 }

/-- System at the terminal point of a refresh chain: bus in `stop`, installed
callback `OLED_cbk_writepage`, all 8 pages written, lock held. -/
def SysT : Sys :=
  { i2c := { I2C0 with i2c_state := .stop, i2c_callback := CB_WRITEPAGE },
    oled := { OLEDHeld with cur_page := 8 }, mem := fun _ => 0 }

/-- Witness for `refresh_lock_discipline` at concrete inputs. -/
theorem refresh_lock_discipline_witness :
    OLED_refresh SysHeld = none ∧
    (OLED_refresh SysFree).isSome = true ∧
    (OLED_refresh SysFree).map (fun s => s.oled.busy_lock) = some 0 ∧
    (sysStep SysT).map (fun p => p.1.oled.busy_lock) = some 1 ∧
    (sysStep SysT).map (fun p => p.1.i2c.i2c_state) = some I2C_State_e.idle := by
  have h1 := (refresh_lock_discipline SysHeld).1 rfl
  have h2 := (refresh_lock_discipline SysFree).2.1 (by decide) rfl
  obtain ⟨s1, hs1⟩ : ∃ s1, OLED_refresh SysFree = some s1 := by
    cases h : OLED_refresh SysFree with
    | none => rw [h] at h2; exact absurd h2 (by decide)
    | some s => exact ⟨s, rfl⟩
  have h3 := (refresh_lock_discipline SysFree).2.2.1 s1 hs1
  obtain ⟨q, hq, hql⟩ : ∃ q, sysStep SysT = some q ∧ q.1.oled.busy_lock = 1 :=
    ⟨_, rfl, rfl⟩
  have h4 := (refresh_lock_discipline SysT).2.2.2 q.1 q.2 rfl (Or.inl rfl)
    (by rw [hq]) (by rw [hql]; decide)
  refine ⟨h1, h2, ?_, ?_, ?_⟩
  · rw [hs1]
    simp [h3.1]
  · rw [hq]
    simp [hql]
  · rw [hq]
    simp [h4.2.2]

/-- Counterexample to claim C5 as stated: a refresh is initiated precisely
when the caller does NOT hold the lock.  With the lock held at entry,
`OLED_refresh` spins forever and never starts; with the lock free, it starts
and acquires the lock itself. -/
theorem refresh_lock_discipline_counterexample :
    OLED_refresh SysHeld = none ∧
    (OLED_refresh SysFree).map (fun s => s.oled.busy_lock) = some 0 := by
  constructor
  · rfl
  · rfl

/-- Overwriting the same byte twice keeps only the second store. -/
theorem mupd_mupd (m : Mem) (a v w : Nat) :
    mupd (mupd m a v) a w = mupd m a w := by
  funext i
  by_cases h : i = a <;> simp [mupd, h]

/-- While no callback fires, driving the system coincides with driving the
bare interrupt handler: the display struct and the memory are untouched. -/
theorem runSys_nofire (k : Nat) (sys : Sys)
    (h : (run_isr sys.mem sys.i2c k).fires = 0) :
    runSys k sys =
      some ({ sys with i2c := (run_isr sys.mem sys.i2c k).st },
        (run_isr sys.mem sys.i2c k).sent) := by
  induction k generalizing sys with
  | zero => simp [runSys, run_isr]
  | succ k ih =>
      by_cases hf : (twi_isr sys.mem sys.i2c).fired
      · exfalso
        simp [run_isr, hf] at h
      · have hrest : (run_isr sys.mem (twi_isr sys.mem sys.i2c).st k).fires = 0 := by
          simp [run_isr, hf] at h
          exact h
        have hstep : sysStep sys =
            some ({ sys with i2c := (twi_isr sys.mem sys.i2c).st },
              (twi_isr sys.mem sys.i2c).sent) := by
          simp [sysStep, hf]
        have hun : runSys (k + 1) sys = (sysStep sys).bind fun p =>
            (runSys k p.1).map fun q => (q.1, p.2.toList ++ q.2) := rfl
        rw [hun, hstep]
        simp only [Option.some_bind]
        rw [ih { sys with i2c := (twi_isr sys.mem sys.i2c).st } hrest]
        simp [run_isr, hf]

/-- Splitting a system run of `j + k` events at the `j`-th event. -/
theorem runSys_add (j k : Nat) (sys : Sys) :
    runSys (j + k) sys = (runSys j sys).bind fun p =>
      (runSys k p.1).map fun q => (q.1, p.2 ++ q.2) := by
  induction j generalizing sys with
  | zero =>
      simp only [Nat.zero_add, runSys, Option.some_bind]
      cases h : runSys k sys with
      | none => simp
      | some q => simp
  | succ j ih =>
      have hh : j + 1 + k = (j + k) + 1 := by omega
      rw [hh]
      have hun1 : runSys (j + k + 1) sys = (sysStep sys).bind fun p =>
          (runSys (j + k) p.1).map fun q => (q.1, p.2.toList ++ q.2) := rfl
      have hun2 : runSys (j + 1) sys = (sysStep sys).bind fun p =>
          (runSys j p.1).map fun q => (q.1, p.2.toList ++ q.2) := rfl
      rw [hun1, hun2]
      cases hs : sysStep sys with
      | none => simp
      | some p =>
          simp only [Option.some_bind]
          rw [ih p.1]
          cases hj : runSys j p.1 with
          | none => simp
          | some a =>
              simp only [Option.some_bind, Option.map_some]
              cases hk : runSys k a.1 with
              | none => simp [hk]
              | some q2 => simp [hk, List.append_assoc]

/-- The I2C driver state immediately after a select-page submission of the
refresh chain: armed at `slaveaddr` with the 6-byte `_i2c_cmd_setpage`
prefix, no data, completion `OLED_cbk_writepage`. -/
def selI2C (addr tw td b r : Nat) : I2C :=
  { i2c_state := .slaveaddr,
    i2c_devaddr := (addr * 2) % 256,
    i2c_prefix_ptr := CMD_SETPAGE_ADDR,
    i2c_prefix_count := 6,
    i2c_data_ptr := 0,
    i2c_data_count := 0,
    i2c_is_fastfail := true,
    i2c_callback := CB_WRITEPAGE,
    i2c_callback_args := OLED_STRUCT_ADDR,
    TWCR := tw, TWDR := td, TWBR := b, TWSR := r }

/-- The system state at a cycle boundary of the refresh chain: the page `q`
select transaction has just been submitted (cursor `q`, lock held, select
command patched to `0xB0 | q`). -/
def selSys (o : OLED) (m : Mem) (q tw td b r : Nat) : Sys :=
  { i2c := selI2C o.i2c_addr tw td b r,
    oled := { o with cur_page := q, busy_lock := 0 },
    mem := mupd m (CMD_SETPAGE_ADDR + 5) (0xB0 ||| q) }

/-- Side conditions on the display struct and initial memory under which the
refresh chain is analysed: a sane geometry, 16-bit-addressable frame buffer
disjoint from the patched select-page byte, and the static command arrays
present in memory. -/
def RefreshHyps (o : OLED) (m : Mem) : Prop :=
  1 ≤ o.width ∧ o.width ≤ 255 ∧ o.num_pages ≤ 15 ∧
  1 ≤ o.frame_buffer ∧
  o.frame_buffer + o.num_pages * o.width < 65536 ∧
  m CMD_SETPAGE_ADDR = 0x80 ∧ m (CMD_SETPAGE_ADDR + 1) = 0x00 ∧
  m (CMD_SETPAGE_ADDR + 2) = 0x80 ∧ m (CMD_SETPAGE_ADDR + 3) = 0x10 ∧
  m (CMD_SETPAGE_ADDR + 4) = 0x80 ∧ m CMD_DATAPREFIX_ADDR = 0x40 ∧
  (∀ j, j < o.num_pages * o.width →
    o.frame_buffer + j ≠ CMD_SETPAGE_ADDR + 5)

/-- The select-page transaction body: 7 events transmit the address byte and
the 6 patched select-page command bytes, ending in `stop` with no callback. -/
theorem runSys_select (o : OLED) (m : Mem) (q tw td b r : Nat)
    (h0 : m CMD_SETPAGE_ADDR = 0x80) (h1 : m (CMD_SETPAGE_ADDR + 1) = 0x00)
    (h2 : m (CMD_SETPAGE_ADDR + 2) = 0x80) (h3 : m (CMD_SETPAGE_ADDR + 3) = 0x10)
    (h4 : m (CMD_SETPAGE_ADDR + 4) = 0x80) :
    runSys 7 (selSys o m q tw td b r) =
      some
        ({ i2c :=
             { i2c_state := .stop,
               i2c_devaddr := (o.i2c_addr * 2) % 256,
               i2c_prefix_ptr := (CMD_SETPAGE_ADDR + 6) % 65536,
               i2c_prefix_count := 0,
               i2c_data_ptr := 0,
               i2c_data_count := 0,
               i2c_is_fastfail := true,
               i2c_callback := CB_WRITEPAGE,
               i2c_callback_args := OLED_STRUCT_ADDR,
               TWCR := (tw &&& 0xDF) ||| 0x80,
               TWDR := 0xB0 ||| q, TWBR := b, TWSR := r },
           oled := { o with cur_page := q, busy_lock := 0 },
           mem := mupd m (CMD_SETPAGE_ADDR + 5) (0xB0 ||| q) },
         [(o.i2c_addr * 2) % 256, 0x80, 0x00, 0x80, 0x10, 0x80, 0xB0 ||| q]) := by
  have htx := run_tx_prefix_only
    (mupd m (CMD_SETPAGE_ADDR + 5) (0xB0 ||| q))
    (selI2C o.i2c_addr tw td b r) 6 rfl
    (by show (0x110 : Nat) ≠ 0; decide)
    (by show (0x110 : Nat) < 65536; decide) rfl rfl
    (by decide) (by decide)
  have hf : (run_isr (selSys o m q tw td b r).mem (selSys o m q tw td b r).i2c
      7).fires = 0 := by
    show (run_isr (mupd m (CMD_SETPAGE_ADDR + 5) (0xB0 ||| q))
      (selI2C o.i2c_addr tw td b r) 7).fires = 0
    rw [show (7 : Nat) = 1 + 6 from rfl, htx]
  rw [runSys_nofire 7 (selSys o m q tw td b r) hf]
  have hrw : run_isr (selSys o m q tw td b r).mem (selSys o m q tw td b r).i2c 7
      = run_isr (mupd m (CMD_SETPAGE_ADDR + 5) (0xB0 ||| q))
          (selI2C o.i2c_addr tw td b r) (1 + 6) := rfl
  rw [hrw, htx]
  have hbytes : (List.range 6).map (fun i =>
      mupd m (CMD_SETPAGE_ADDR + 5) (0xB0 ||| q)
        (((selI2C o.i2c_addr tw td b r).i2c_prefix_ptr + i) % 65536))
      = [0x80, 0x00, 0x80, 0x10, 0x80, 0xB0 ||| q] := by
    norm_num [CMD_SETPAGE_ADDR] at h0 h1 h2 h3 h4
    simp [List.range_succ, mupd, selI2C, CMD_SETPAGE_ADDR]
    exact ⟨h0, h1, h2, h3, h4⟩
  have htd : mupd m (CMD_SETPAGE_ADDR + 5) (0xB0 ||| q)
      (((selI2C o.i2c_addr tw td b r).i2c_prefix_ptr + (6 - 1)) % 65536)
      = 0xB0 ||| q := by
    simp [mupd, selI2C, CMD_SETPAGE_ADDR]
  simp only [selSys, selI2C] at hbytes htd ⊢
  rw [hbytes, htd]

/-- Running a single system event is one `sysStep`. -/
theorem runSys_one (sys : Sys) :
    runSys 1 sys = (sysStep sys).map fun p => (p.1, p.2.toList) := by
  cases h : sysStep sys <;> simp [runSys, h]

/-- Bytes of one select-page transaction on the wire. -/
def selectTxBytes (addr2 q : Nat) : List Nat :=
  [addr2, 0x80, 0x00, 0x80, 0x10, 0x80, 0xB0 ||| q]

/-- Bytes of one page-transfer transaction on the wire: address, the 0x40
data-mode prefix, then the `w` frame-buffer bytes of page `q`. -/
def dataTxBytes (addr2 : Nat) (m : Mem) (fb w q : Nat) : List Nat :=
  addr2 :: 0x40 :: (List.range w).map (fun i => m (fb + q * w + i))

/-- Completion of a non-final select-page transaction: the stop event returns
the bus to idle and fires `OLED_cbk_writepage`, which advances the cursor and
submits the page-transfer transaction for page `q`. -/
theorem step_select_done (o : OLED) (m : Mem) (q tw td b r : Nat)
    (hq : q < o.num_pages) (hq15 : q ≤ 14)
    (hw1 : 1 ≤ o.width)
    (hfb2 : o.frame_buffer + o.num_pages * o.width < 65536) :
    sysStep
      { i2c :=
          { i2c_state := .stop,
            i2c_devaddr := (o.i2c_addr * 2) % 256,
            i2c_prefix_ptr := (CMD_SETPAGE_ADDR + 6) % 65536,
            i2c_prefix_count := 0,
            i2c_data_ptr := 0,
            i2c_data_count := 0,
            i2c_is_fastfail := true,
            i2c_callback := CB_WRITEPAGE,
            i2c_callback_args := OLED_STRUCT_ADDR,
            TWCR := (tw &&& 0xDF) ||| 0x80,
            TWDR := 0xB0 ||| q, TWBR := b, TWSR := r },
        oled := { o with cur_page := q, busy_lock := 0 },
        mem := mupd m (CMD_SETPAGE_ADDR + 5) (0xB0 ||| q) } =
    some
      ({ i2c :=
           { i2c_state := .slaveaddr,
             i2c_devaddr := (o.i2c_addr * 2) % 256,
             i2c_prefix_ptr := CMD_DATAPREFIX_ADDR,
             i2c_prefix_count := 1,
             i2c_data_ptr := o.frame_buffer + q * o.width,
             i2c_data_count := o.width,
             i2c_is_fastfail := true,
             i2c_callback := CB_SETWRITEPAGE,
             i2c_callback_args := OLED_STRUCT_ADDR,
             TWCR := (((tw &&& 0xDF) ||| 0x80) ||| 0x90) ||| 0xA0,
             TWDR := 0xB0 ||| q, TWBR := b, TWSR := r },
         oled := { o with cur_page := q + 1, busy_lock := 0 },
         mem := mupd m (CMD_SETPAGE_ADDR + 5) (0xB0 ||| q) }, none) := by
  have hq1 : q + 1 ≤ o.num_pages := hq
  have hmul : (q + 1) * o.width ≤ o.num_pages * o.width :=
    Nat.mul_le_mul_right _ hq1
  have hlin : q * o.width + o.width = (q + 1) * o.width := by ring
  have hlt : o.frame_buffer + q * o.width < 65536 := by omega
  have hmod1 : (o.frame_buffer + q * o.width) % 65536
      = o.frame_buffer + q * o.width := Nat.mod_eq_of_lt hlt
  have hmod2 : (q + 1) % 256 = q + 1 := Nat.mod_eq_of_lt (by omega)
  have hnq : ¬ (q ≥ o.num_pages) := by omega
  simp [sysStep, twi_isr, cbk_dispatch, CB_WRITEPAGE, CB_EMPTY, CB_UNLOCK,
    CB_SETWRITEPAGE, OLED_cbk_writepage, OLED_i2c_tx_shed, selI2C, hnq,
    hmod1, hmod2]

/-- Completion of the final select-page transaction (cursor at `pageCount`):
the stop event returns the bus to idle and fires `OLED_cbk_writepage`, which
releases the lock and ends the chain. -/
theorem step_select_terminal (o : OLED) (m : Mem) (q tw td b r : Nat)
    (hq : o.num_pages ≤ q) :
    sysStep
      { i2c :=
          { i2c_state := .stop,
            i2c_devaddr := (o.i2c_addr * 2) % 256,
            i2c_prefix_ptr := (CMD_SETPAGE_ADDR + 6) % 65536,
            i2c_prefix_count := 0,
            i2c_data_ptr := 0,
            i2c_data_count := 0,
            i2c_is_fastfail := true,
            i2c_callback := CB_WRITEPAGE,
            i2c_callback_args := OLED_STRUCT_ADDR,
            TWCR := (tw &&& 0xDF) ||| 0x80,
            TWDR := 0xB0 ||| q, TWBR := b, TWSR := r },
        oled := { o with cur_page := q, busy_lock := 0 },
        mem := mupd m (CMD_SETPAGE_ADDR + 5) (0xB0 ||| q) } =
    some
      ({ i2c :=
           { i2c_state := .idle,
             i2c_devaddr := (o.i2c_addr * 2) % 256,
             i2c_prefix_ptr := (CMD_SETPAGE_ADDR + 6) % 65536,
             i2c_prefix_count := 0,
             i2c_data_ptr := 0,
             i2c_data_count := 0,
             i2c_is_fastfail := true,
             i2c_callback := CB_WRITEPAGE,
             i2c_callback_args := OLED_STRUCT_ADDR,
             TWCR := ((tw &&& 0xDF) ||| 0x80) ||| 0x90,
             TWDR := 0xB0 ||| q, TWBR := b, TWSR := r },
         oled := { o with cur_page := q, busy_lock := 1 },
         mem := mupd m (CMD_SETPAGE_ADDR + 5) (0xB0 ||| q) }, none) := by
  have hnq : q ≥ o.num_pages := hq
  simp [sysStep, twi_isr, cbk_dispatch, CB_WRITEPAGE, CB_EMPTY, CB_UNLOCK,
    CB_SETWRITEPAGE, OLED_cbk_writepage, OLED_unlock, selI2C, hnq]

/-- The page-transfer transaction body for page `q`: `width + 2` events
transmit the address byte, the 0x40 data-mode prefix and the `width`
frame-buffer bytes of page `q`, ending in `stop` with no callback. -/
theorem runSys_datatx (o : OLED) (m : Mem) (q tw td b r : Nat)
    (hq : q < o.num_pages)
    (hw1 : 1 ≤ o.width) (hw2 : o.width ≤ 255)
    (hfb1 : 1 ≤ o.frame_buffer)
    (hfb2 : o.frame_buffer + o.num_pages * o.width < 65536)
    (h5 : m CMD_DATAPREFIX_ADDR = 0x40)
    (hdisj : ∀ j, j < o.num_pages * o.width →
      o.frame_buffer + j ≠ CMD_SETPAGE_ADDR + 5) :
    runSys (o.width + 2)
      { i2c :=
          { i2c_state := .slaveaddr,
            i2c_devaddr := (o.i2c_addr * 2) % 256,
            i2c_prefix_ptr := CMD_DATAPREFIX_ADDR,
            i2c_prefix_count := 1,
            i2c_data_ptr := o.frame_buffer + q * o.width,
            i2c_data_count := o.width,
            i2c_is_fastfail := true,
            i2c_callback := CB_SETWRITEPAGE,
            i2c_callback_args := OLED_STRUCT_ADDR,
            TWCR := (((tw &&& 0xDF) ||| 0x80) ||| 0x90) ||| 0xA0,
            TWDR := 0xB0 ||| q, TWBR := b, TWSR := r },
        oled := { o with cur_page := q + 1, busy_lock := 0 },
        mem := mupd m (CMD_SETPAGE_ADDR + 5) (0xB0 ||| q) } =
    some
      ({ i2c :=
           { i2c_state := .stop,
             i2c_devaddr := (o.i2c_addr * 2) % 256,
             i2c_prefix_ptr := (CMD_DATAPREFIX_ADDR + 1) % 65536,
             i2c_prefix_count := 0,
             i2c_data_ptr := (o.frame_buffer + q * o.width + o.width) % 65536,
             i2c_data_count := 0,
             i2c_is_fastfail := true,
             i2c_callback := CB_SETWRITEPAGE,
             i2c_callback_args := OLED_STRUCT_ADDR,
             TWCR := ((((((tw &&& 0xDF) ||| 0x80) ||| 0x90) ||| 0xA0) &&& 0xDF)
               ||| 0x80),
             TWDR := mupd m (CMD_SETPAGE_ADDR + 5) (0xB0 ||| q)
               ((o.frame_buffer + q * o.width + (o.width - 1)) % 65536),
             TWBR := b, TWSR := r },
         oled := { o with cur_page := q + 1, busy_lock := 0 },
         mem := mupd m (CMD_SETPAGE_ADDR + 5) (0xB0 ||| q) },
       (o.i2c_addr * 2) % 256 :: 0x40 ::
         (List.range o.width).map
           (fun i => m (o.frame_buffer + q * o.width + i))) := by
  have hq1 : q + 1 ≤ o.num_pages := hq
  have hmul : (q + 1) * o.width ≤ o.num_pages * o.width :=
    Nat.mul_le_mul_right _ hq1
  have hlin : q * o.width + o.width = (q + 1) * o.width := by ring
  have hlt : o.frame_buffer + q * o.width < 65536 := by omega
  have hnz : o.frame_buffer + q * o.width ≠ 0 := by omega
  have htx := run_tx_prefix_data
    (mupd m (CMD_SETPAGE_ADDR + 5) (0xB0 ||| q))
    { i2c_state := .slaveaddr,
      i2c_devaddr := (o.i2c_addr * 2) % 256,
      i2c_prefix_ptr := CMD_DATAPREFIX_ADDR,
      i2c_prefix_count := 1,
      i2c_data_ptr := o.frame_buffer + q * o.width,
      i2c_data_count := o.width,
      i2c_is_fastfail := true,
      i2c_callback := CB_SETWRITEPAGE,
      i2c_callback_args := OLED_STRUCT_ADDR,
      TWCR := (((tw &&& 0xDF) ||| 0x80) ||| 0x90) ||| 0xA0,
      TWDR := 0xB0 ||| q, TWBR := b, TWSR := r }
    1 o.width rfl
    (by show CMD_DATAPREFIX_ADDR ≠ 0; decide)
    (by show CMD_DATAPREFIX_ADDR < 65536; decide)
    hnz hlt rfl (by omega) (by omega) rfl hw1 (by omega)
  have hf : (run_isr (mupd m (CMD_SETPAGE_ADDR + 5) (0xB0 ||| q))
      { i2c_state := .slaveaddr,
        i2c_devaddr := (o.i2c_addr * 2) % 256,
        i2c_prefix_ptr := CMD_DATAPREFIX_ADDR,
        i2c_prefix_count := 1,
        i2c_data_ptr := o.frame_buffer + q * o.width,
        i2c_data_count := o.width,
        i2c_is_fastfail := true,
        i2c_callback := CB_SETWRITEPAGE,
        i2c_callback_args := OLED_STRUCT_ADDR,
        TWCR := (((tw &&& 0xDF) ||| 0x80) ||| 0x90) ||| 0xA0,
        TWDR := 0xB0 ||| q, TWBR := b, TWSR := r }
      (o.width + 2)).fires = 0 := by
    rw [show o.width + 2 = 1 + 1 + o.width from by omega, htx]
  rw [runSys_nofire (o.width + 2) _ hf]
  have hrw : (o.width + 2) = 1 + 1 + o.width := by omega
  rw [hrw, htx]
  have hpfxb : (List.range 1).map (fun i =>
      mupd m (CMD_SETPAGE_ADDR + 5) (0xB0 ||| q)
        ((CMD_DATAPREFIX_ADDR + i) % 65536)) = [0x40] := by
    simp [List.range_succ, mupd, CMD_DATAPREFIX_ADDR, CMD_SETPAGE_ADDR]
    norm_num [CMD_DATAPREFIX_ADDR, CMD_SETPAGE_ADDR] at h5
    exact h5
  have hdatab : (List.range o.width).map (fun i =>
      mupd m (CMD_SETPAGE_ADDR + 5) (0xB0 ||| q)
        ((o.frame_buffer + q * o.width + i) % 65536))
      = (List.range o.width).map
        (fun i => m (o.frame_buffer + q * o.width + i)) := by
    refine List.map_congr_left ?_
    intro i hi
    have hi' : i < o.width := List.mem_range.mp hi
    have hlt2 : o.frame_buffer + q * o.width + i < 65536 := by omega
    rw [Nat.mod_eq_of_lt hlt2]
    have hne : o.frame_buffer + (q * o.width + i) ≠ CMD_SETPAGE_ADDR + 5 :=
      hdisj (q * o.width + i) (by omega)
    simp only [mupd]
    rw [if_neg (by omega)]
  rw [hpfxb, hdatab]
  have htd2 : ((o.frame_buffer + q * o.width) + (o.width - 1)) % 65536
      = (o.frame_buffer + q * o.width + (o.width - 1)) % 65536 := rfl
  simp [htd2]

/-- Completion of a page-transfer transaction: the stop event returns the bus
to idle and fires `OLED_cbk_setwritepage`, which re-patches the select-page
command for the next page and submits it, reaching the next cycle boundary. -/
theorem step_data_done (o : OLED) (m : Mem) (q tw td b r : Nat) :
    sysStep
      { i2c :=
          { i2c_state := .stop,
            i2c_devaddr := (o.i2c_addr * 2) % 256,
            i2c_prefix_ptr := (CMD_DATAPREFIX_ADDR + 1) % 65536,
            i2c_prefix_count := 0,
            i2c_data_ptr := (o.frame_buffer + q * o.width + o.width) % 65536,
            i2c_data_count := 0,
            i2c_is_fastfail := true,
            i2c_callback := CB_SETWRITEPAGE,
            i2c_callback_args := OLED_STRUCT_ADDR,
            TWCR := tw, TWDR := td, TWBR := b, TWSR := r },
        oled := { o with cur_page := q + 1, busy_lock := 0 },
        mem := mupd m (CMD_SETPAGE_ADDR + 5) (0xB0 ||| q) } =
    some (selSys o m (q + 1) ((tw ||| 0x90) ||| 0xA0) td b r, none) := by
  simp [sysStep, twi_isr, cbk_dispatch, CB_SETWRITEPAGE, CB_EMPTY, CB_UNLOCK,
    CB_WRITEPAGE, OLED_cbk_setwritepage, OLED_i2c_tx_shed, selSys, selI2C,
    mupd_mupd]

/-- Composing one transaction body, its completion dispatch, a second
transaction body and its completion dispatch. -/
theorem runSys_compose (k1 k2 : Nat) (sys A B C D : Sys) (t1 t2 : List Nat)
    (h1 : runSys k1 sys = some (A, t1))
    (h2 : sysStep A = some (B, none))
    (h3 : runSys k2 B = some (C, t2))
    (h4 : sysStep C = some (D, none)) :
    runSys (k1 + (1 + (k2 + 1))) sys = some (D, t1 ++ t2) := by
  rw [runSys_add k1, h1]
  simp only [Option.some_bind]
  rw [runSys_add 1, runSys_one, h2]
  simp only [Option.map_some', Option.some_bind]
  rw [runSys_add k2, h3]
  simp only [Option.some_bind]
  rw [runSys_one, h4]
  simp [List.append_assoc]

/-- One full page cycle of the refresh chain: from the cycle boundary of page
`q < pageCount`, `width + 11` hardware events transmit the select-page
transaction for `q` followed by the page-transfer transaction carrying the
`width` frame-buffer bytes of page `q`, and reach the cycle boundary of page
`q + 1` with the lock still held. -/
theorem runSys_cycle (o : OLED) (m : Mem) (q tw td b r : Nat)
    (h : RefreshHyps o m) (hq : q < o.num_pages) :
    ∃ tw2 td2, runSys (o.width + 11) (selSys o m q tw td b r) =
      some (selSys o m (q + 1) tw2 td2 b r,
        selectTxBytes ((o.i2c_addr * 2) % 256) q ++
        dataTxBytes ((o.i2c_addr * 2) % 256) m o.frame_buffer o.width q) := by
  obtain ⟨hw1, hw2, hn15, hfb1, hfb2, h0, h1, h2, h3, h4, h5, hdisj⟩ := h
  have hq15 : q ≤ 14 := by omega
  have s1 := runSys_select o m q tw td b r h0 h1 h2 h3 h4
  have s2 := step_select_done o m q tw td b r hq hq15 hw1 hfb2
  have s3 := runSys_datatx o m q tw td b r hq hw1 hw2 hfb1 hfb2 h5 hdisj
  have s4 := step_data_done o m q
    ((((((tw &&& 0xDF) ||| 0x80) ||| 0x90) ||| 0xA0) &&& 0xDF) ||| 0x80)
    (mupd m (CMD_SETPAGE_ADDR + 5) (0xB0 ||| q)
      ((o.frame_buffer + q * o.width + (o.width - 1)) % 65536)) b r
  refine ⟨(((((((tw &&& 0xDF) ||| 0x80) ||| 0x90) ||| 0xA0) &&& 0xDF) ||| 0x80)
      ||| 0x90) ||| 0xA0,
    mupd m (CMD_SETPAGE_ADDR + 5) (0xB0 ||| q)
      ((o.frame_buffer + q * o.width + (o.width - 1)) % 65536), ?_⟩
  rw [show o.width + 11 = 7 + (1 + ((o.width + 2) + 1)) from by omega]
  exact runSys_compose 7 (o.width + 2) _ _ _ _ _ _ _ s1 s2 s3 s4

/-- One system event with a known step result. -/
theorem runSys_last (sys sys2 : Sys) (out : Option Nat)
    (h : sysStep sys = some (sys2, out)) :
    runSys 1 sys = some (sys2, out.toList) := by
  simp [runSys, h]

/-- The wire bytes of `j` consecutive refresh page cycles starting at page
`q`: for each page, its select-page transaction followed by its page-transfer
transaction. -/
def refreshPages (addr2 : Nat) (m : Mem) (fb w : Nat) : Nat → Nat → List Nat
  | _, 0 => []
  | q, j + 1 =>
      (selectTxBytes addr2 q ++ dataTxBytes addr2 m fb w q) ++
        refreshPages addr2 m fb w (q + 1) j

/-- The whole wire trace of a refresh on an `n`-page display: pages 0..n-1 in
increasing order, then one additional select-page transaction for index `n`
whose completion releases the lock. -/
def refreshTraceBytes (addr2 : Nat) (m : Mem) (fb w n : Nat) : List Nat :=
  refreshPages addr2 m fb w 0 n ++ selectTxBytes addr2 n

/-- Chaining `j` refresh page cycles from page `q`. -/
theorem runSys_chain (o : OLED) (m : Mem) (j : Nat) :
    ∀ q tw td b r, RefreshHyps o m → q + j ≤ o.num_pages →
    ∃ tw2 td2, runSys (j * (o.width + 11)) (selSys o m q tw td b r) =
      some (selSys o m (q + j) tw2 td2 b r,
        refreshPages ((o.i2c_addr * 2) % 256) m o.frame_buffer o.width q j) := by
  induction j with
  | zero =>
      intro q tw td b r h hle
      exact ⟨tw, td, by simp [runSys, refreshPages]⟩
  | succ j ih =>
      intro q tw td b r h hle
      obtain ⟨tw1, td1, hcyc⟩ := runSys_cycle o m q tw td b r h (by omega)
      obtain ⟨tw2, td2, hch⟩ := ih (q + 1) tw1 td1 b r h (by omega)
      refine ⟨tw2, td2, ?_⟩
      rw [show (j + 1) * (o.width + 11) = (o.width + 11) + j * (o.width + 11)
        from by ring]
      rw [runSys_add (o.width + 11) (j * (o.width + 11))]
      rw [hcyc]
      simp only [Option.some_bind]
      rw [hch]
      have hq : q + 1 + j = q + (j + 1) := by omega
      rw [hq]
      simp [refreshPages]

/-- Starting a refresh from a free lock and an idle bus reaches the cycle
boundary of page 0: lock acquired, cursor reset, select-page command patched
for page 0 and its transaction armed. -/
theorem refresh_start (sys : Sys) (hl : sys.oled.busy_lock ≠ 0)
    (hidle : sys.i2c.i2c_state = .idle) :
    OLED_refresh sys = some (selSys sys.oled sys.mem 0 (sys.i2c.TWCR ||| 0xA0)
      sys.i2c.TWDR sys.i2c.TWBR sys.i2c.TWSR) := by
  simp [OLED_refresh, OLED_spinlock, hl, OLED_cbk_setwritepage,
    OLED_i2c_tx_shed, hidle, selSys, selI2C]

/-- Composing a run with a final 7-event transaction and its terminal
dispatch. -/
theorem runSys_tail (k : Nat) (sys A B C : Sys) (t1 t2 : List Nat)
    (h1 : runSys k sys = some (A, t1))
    (h2 : runSys 7 A = some (B, t2))
    (h3 : sysStep B = some (C, none)) :
    runSys (k + 8) sys = some (C, t1 ++ t2) := by
  rw [show k + 8 = k + (7 + 1) from by omega]
  rw [runSys_add k (7 + 1), h1]
  simp only [Option.some_bind]
  rw [runSys_add 7 1, h2]
  simp only [Option.some_bind]
  rw [runSys_last _ _ _ h3]
  simp

/-- Claim C1 (amended): every refresh started by `OLED_refresh` from a free
lock and idle bus submits, for each page p = 0..pageCount-1 in strictly
increasing order, a select-page command whose last byte's low nibble equals p
followed by a transfer of exactly `width` bytes equal to
frameBuffer[p*width .. p*width+width) at transmission time, each page written
exactly once; after the final page's transfer completes, the sequencer
submits ONE ADDITIONAL select-page transaction for index pageCount (byte
0xB0 | pageCount), and it is the completion of that additional transaction -
not of the final page transfer - that releases the lock and terminates the
chain, leaving the bus idle and the cursor at pageCount. -/
theorem refresh_chain_trace (sys : Sys)
    (hl : sys.oled.busy_lock ≠ 0)
    (hidle : sys.i2c.i2c_state = .idle)
    (h : RefreshHyps sys.oled sys.mem) :
    ∃ s1 sfin tr,
      OLED_refresh sys = some s1 ∧
      runSys (sys.oled.num_pages * (sys.oled.width + 11) + 8) s1
        = some (sfin, tr) ∧
      tr = refreshTraceBytes ((sys.oled.i2c_addr * 2) % 256) sys.mem
        sys.oled.frame_buffer sys.oled.width sys.oled.num_pages ∧
      sfin.oled.busy_lock = 1 ∧
      sfin.i2c.i2c_state = .idle ∧
      sfin.oled.cur_page = sys.oled.num_pages ∧
      sfin.mem = mupd sys.mem (CMD_SETPAGE_ADDR + 5)
        (0xB0 ||| sys.oled.num_pages) := by
  obtain ⟨hw1, hw2, hn15, hfb1, hfb2, h0, h1, h2, h3, h4, h5, hdisj⟩ := h
  have hstart := refresh_start sys hl hidle
  obtain ⟨tw2, td2, hch⟩ := runSys_chain sys.oled sys.mem sys.oled.num_pages
    0 (sys.i2c.TWCR ||| 0xA0) sys.i2c.TWDR sys.i2c.TWBR sys.i2c.TWSR
    ⟨hw1, hw2, hn15, hfb1, hfb2, h0, h1, h2, h3, h4, h5, hdisj⟩ (by omega)
  have hzn : (0 : Nat) + sys.oled.num_pages = sys.oled.num_pages := by omega
  rw [hzn] at hch
  have hsel := runSys_select sys.oled sys.mem sys.oled.num_pages tw2 td2
    sys.i2c.TWBR sys.i2c.TWSR h0 h1 h2 h3 h4
  have hterm := step_select_terminal sys.oled sys.mem sys.oled.num_pages tw2
    td2 sys.i2c.TWBR sys.i2c.TWSR (Nat.le_refl _)
  have hfull := runSys_tail (sys.oled.num_pages * (sys.oled.width + 11))
    (selSys sys.oled sys.mem 0 (sys.i2c.TWCR ||| 0xA0) sys.i2c.TWDR
      sys.i2c.TWBR sys.i2c.TWSR) _ _ _ _ _ hch hsel hterm
  refine ⟨_, _, _, hstart, hfull, ?_, ?_, ?_, ?_, ?_⟩
  · simp [refreshTraceBytes, selectTxBytes]
  · rfl
  · rfl
  · rfl
  · rfl

/-- A concrete memory holding the command arrays and a 1-byte frame buffer
(0xFF at address 0x400). -/
def wMem : Mem := fun a =>
  if a = 0x110 then 0x80 else if a = 0x111 then 0x00
  else if a = 0x112 then 0x80 else if a = 0x113 then 0x10
  else if a = 0x114 then 0x80 else if a = 0x11C then 0x40
  else if a = 0x400 then 0xFF else 0

/-- A concrete 1-page display of width 1, lock free. -/
def wOLED : OLED :=
  { width := 1, height := 8, frame_buffer := 0x400, busy_lock := 1,
    i2c_addr := 0x3C, cur_page := 0, num_pages := 1 }

/-- A concrete system ready to refresh. -/
def wSys : Sys := { i2c := I2C0, oled := wOLED, mem := wMem }

/-- Witness for `refresh_chain_trace`: the concrete 1-page refresh runs for
20 events, releases the lock and transmits exactly the predicted trace. -/
theorem refresh_chain_trace_witness :
    ((OLED_refresh wSys).bind (runSys 20)).map (fun p => p.1.oled.busy_lock)
      = some 1 ∧
    ((OLED_refresh wSys).bind (runSys 20)).map (fun p => p.2)
      = some (refreshTraceBytes 0x78 wMem 0x400 1 1) := by
  have h := refresh_chain_trace wSys (by decide) rfl
    ⟨by decide, by decide, by decide, by decide, by decide, by decide,
     by decide, by decide, by decide, by decide, by decide, by decide⟩
  obtain ⟨s1, sfin, tr, h1, h2, h3, h4, h5, h6, h7⟩ := h
  have h2' : runSys 20 s1 = some (sfin, tr) := h2
  rw [h1]
  simp only [Option.some_bind, h2', Option.map_some']
  constructor
  · rw [h4]
  · rw [h3]
    rfl

/-- Counterexample to claim C1 as stated: on the concrete 1-page display, the
completion of the final (only) page's transfer - hardware event 12 - does NOT
release the lock or terminate the chain; instead the sequencer submits one
more select-page transaction (the bus is armed again), and the full 20-event
run ends with an extra select-page command whose last byte 0xB1 has low
nibble pageCount = 1. -/
theorem refresh_chain_trace_counterexample :
    ((OLED_refresh wSys).bind (runSys 12)).map (fun p => p.1.oled.busy_lock)
      = some 0 ∧
    ((OLED_refresh wSys).bind (runSys 12)).map (fun p => p.1.i2c.i2c_state)
      = some I2C_State_e.slaveaddr ∧
    ((OLED_refresh wSys).bind (runSys 20)).map (fun p => p.2)
      = some [0x78, 0x80, 0x00, 0x80, 0x10, 0x80, 0xB0, 0x78, 0x40, 0xFF,
          0x78, 0x80, 0x00, 0x80, 0x10, 0x80, 0xB1] := by
  refine ⟨?_, ?_, ?_⟩
  · decide
  · decide
  · decide

/-- Modelled from the spec: drawing parameter flags from the missing header
`oled.h` (error taxonomy: InvalidParameter for flag bits outside the defined
set).  `OLED_BLACK` is the colour bit tested by `OLED_BLACK & params` and
`OLED_FILL` the fill bit tested by `OLED_FILL & params`; the defined set is
`OLED_BLACK | OLED_FILL`. -/
def OLED_BLACK : Nat := 1

/-- Modelled from the spec: the fill flag bit (see `OLED_BLACK`). -/
def OLED_FILL : Nat := 2

/-- Modelled from the spec: `OLED_put_pixel_` is the unchecked inline pixel
writer from the missing header.  The frame buffer is page-major, one bit per
pixel: byte `(y/8)*width + x` of the buffer, bit `y%8`; pointer arithmetic is
16-bit. -/
def OLED_put_pixel_ (oled : OLED) (m : Mem) (x y : Nat) (pixel_state : Bool) :
    Mem :=
  let a := (oled.frame_buffer + (y / 8) * oled.width + x) % 65536
  mupd m a
    (if pixel_state then m a ||| (1 <<< (y % 8))
     else m a &&& (0xFF ^^^ (1 <<< (y % 8))))

/-- Read back the bit of pixel (x, y) from the frame buffer (same page-major
layout as `OLED_put_pixel_`). -/
def OLED_pixel_bit (oled : OLED) (m : Mem) (x y : Nat) : Bool :=
  Nat.testBit (m ((oled.frame_buffer + (y / 8) * oled.width + x) % 65536))
    (y % 8)

/-- `OLED_put_pixel` (src/oled.c lines 265-271): bounds check, then the
unchecked write. -/
def OLED_put_pixel (oled : OLED) (m : Mem) (x y : Nat) (pixel_state : Bool) :
    OLED_err × Mem :=
  if x ≥ oled.width ∨ y ≥ oled.height then (OLED_EBOUNDS, m)
  else (OLED_EOK, OLED_put_pixel_ oled m x y pixel_state)

/-- A C `for (uint8_t x = x0; x <= stop; x++) body` loop.  `stop` is the
loop bound after integer promotion (it may exceed 255); when `stop ≥ 255`
the `uint8_t` counter can never exceed it, so the loop never exits (`none`);
otherwise it runs `body` for `x0..stop`. -/
def cforU8 (stop : Nat) (f : Nat → Mem → Option Mem) (x : Nat) (m : Mem) :
    Option Mem :=
  if 255 ≤ stop then none
  else if stop < x then some m
  else match f x m with
    | none => none
    | some m2 => cforU8 stop f (x + 1) m2
termination_by stop + 1 - x
decreasing_by
  simp_wf
  omega

/-- Clamping one coordinate to the display bound, counting an error when it
was out of range (the repeated `if (v > max) { v = max; size_errors++; }`
blocks of src/oled.c). -/
def rect_clamp (vmax v : Nat) : Nat × Nat :=
  if v > vmax then (vmax, 1) else (v, 0)

/-- The drawing phase of `OLED_put_rectangle` (src/oled.c lines 487-514):
normalize the (already clamped) corners, then either fill the area or draw
the outer frame. -/
def rect_draw (oled : OLED) (m : Mem) (pixel_color is_fill : Bool)
    (x_from y_from x_to y_to : Nat) : Option Mem :=
  let start_x := if x_to < x_from then x_to else x_from
  let start_y := if y_to < y_from then y_to else y_from
  let stop_x := if x_to > x_from then x_to else x_from
  let stop_y := if y_to > y_from then y_to else y_from
  if is_fill then
    cforU8 stop_x
      (fun x mm => cforU8 stop_y
        (fun y mm2 => some (OLED_put_pixel_ oled mm2 x y pixel_color))
        start_y mm)
      start_x m
  else
    (cforU8 stop_x
      (fun x mm => some (OLED_put_pixel_ oled
        (OLED_put_pixel_ oled mm x start_y pixel_color) x stop_y pixel_color))
      start_x m).bind fun m1 =>
    cforU8 stop_y
      (fun y mm => some (OLED_put_pixel_ oled
        (OLED_put_pixel_ oled mm start_x y pixel_color) stop_x y pixel_color))
      start_y m1

/-- `OLED_put_rectangle` (src/oled.c lines 456-517): parameter check, clamp
the four coordinates to the display bounds counting the offenders, reject
with Bounds only when all four were out of range, else draw. -/
def OLED_put_rectangle (oled : OLED) (m : Mem)
    (x_from y_from x_to y_to params : Nat) : Option (OLED_err × Mem) :=
  if params > (OLED_BLACK ||| OLED_FILL) then some (OLED_EPARAMS, m)
  else
    let pixel_color := params &&& OLED_BLACK ≠ 0
    let is_fill := params &&& OLED_FILL ≠ 0
    let w_max := (oled.width + 255) % 256
    let h_max := (oled.height + 255) % 256
    let cxf := rect_clamp w_max x_from
    let cxt := rect_clamp w_max x_to
    let cyf := rect_clamp h_max y_from
    let cyt := rect_clamp h_max y_to
    if cxf.2 + cxt.2 + cyf.2 + cyt.2 ≥ 4 then some (OLED_EBOUNDS, m)
    else
      (rect_draw oled m pixel_color is_fill cxf.1 cyf.1 cxt.1 cyt.1).map
        fun m2 => (OLED_EOK, m2)

/-- Implicit conversion of an `int16_t` expression to a `uint8_t` parameter
(C conversion to an unsigned type: value modulo 256). -/
def u8 (i : Int) : Nat := (i % 256).toNat

/-- Modelled from the spec: `OLED_put_line` belongs to the rasterizer layer
whose implementation is missing from src/ (only its calls from
`fillCircleHelper` and a commented-out call in src/oled_test.c remain).  Per
the spec it is a bounds-checked drawing operation returning
Ok/Bounds/InvalidParameter, with the same parameter check and clamping
discipline as the other shape operations; the fill helper only ever draws
vertical segments with it. -/
def OLED_put_line (oled : OLED) (m : Mem)
    (x_from y_from x_to y_to params : Nat) : Option (OLED_err × Mem) :=
  if params > (OLED_BLACK ||| OLED_FILL) then some (OLED_EPARAMS, m)
  else
    let pixel_color := params &&& OLED_BLACK ≠ 0
    let w_max := (oled.width + 255) % 256
    let h_max := (oled.height + 255) % 256
    let cxf := rect_clamp w_max x_from
    let cxt := rect_clamp w_max x_to
    let cyf := rect_clamp h_max y_from
    let cyt := rect_clamp h_max y_to
    if cxf.2 + cxt.2 + cyf.2 + cyt.2 ≥ 4 then some (OLED_EBOUNDS, m)
    else if cxf.1 = cxt.1 then
      (cforU8 (max cyf.1 cyt.1)
        (fun y mm => some (OLED_put_pixel_ oled mm cxf.1 y pixel_color))
        (min cyf.1 cyt.1) m).map fun m2 => (OLED_EOK, m2)
    else if cyf.1 = cyt.1 then
      (cforU8 (max cxf.1 cxt.1)
        (fun x mm => some (OLED_put_pixel_ oled mm x cyf.1 pixel_color))
        (min cxf.1 cxt.1) m).map fun m2 => (OLED_EOK, m2)
    else
      let sx := min cxf.1 cxt.1
      let tx := max cxf.1 cxt.1
      let ya : Int := if cxf.1 ≤ cxt.1 then cyf.1 else cyt.1
      let yb : Int := if cxf.1 ≤ cxt.1 then cyt.1 else cyf.1
      (cforU8 tx
        (fun x mm => some (OLED_put_pixel_ oled mm x
          (u8 (ya + ((x : Int) - sx) * (yb - ya) / ((tx : Int) - sx)))
          pixel_color))
        sx m).map fun m2 => (OLED_EOK, m2)

/-- The midpoint loop of `drawCircleHelper` (src/oled.c lines 380-405).
The `int16_t` locals are modelled as unbounded integers: for the radii
representable here (`r ≤ 255` after `uint8_t` promotion) every intermediate
value stays far inside the `int16_t` range, so no wrap occurs in the
source either. -/
def drawCircleLoop (oled : OLED) (x0 y0 : Int) (cornername : Nat)
    (pixel_color : Bool) (f ddF_x ddF_y x y : Int) (m : Mem) : Mem :=
  if x < y then
    let y1 := if 0 ≤ f then y - 1 else y
    let ddF_y1 := if 0 ≤ f then ddF_y + 2 else ddF_y
    let f1 := (if 0 ≤ f then f + ddF_y + 2 else f) + ddF_x + 2
    let x1 := x + 1
    let m1 := if cornername &&& 0x4 ≠ 0 then
        OLED_put_pixel_ oled
          (OLED_put_pixel_ oled m (u8 (x0 + x1)) (u8 (y0 + y1)) pixel_color)
          (u8 (x0 + y1)) (u8 (y0 + x1)) pixel_color
      else m
    let m2 := if cornername &&& 0x2 ≠ 0 then
        OLED_put_pixel_ oled
          (OLED_put_pixel_ oled m1 (u8 (x0 + x1)) (u8 (y0 - y1)) pixel_color)
          (u8 (x0 + y1)) (u8 (y0 - x1)) pixel_color
      else m1
    let m3 := if cornername &&& 0x8 ≠ 0 then
        OLED_put_pixel_ oled
          (OLED_put_pixel_ oled m2 (u8 (x0 - y1)) (u8 (y0 + x1)) pixel_color)
          (u8 (x0 - x1)) (u8 (y0 + y1)) pixel_color
      else m2
    let m4 := if cornername &&& 0x1 ≠ 0 then
        OLED_put_pixel_ oled
          (OLED_put_pixel_ oled m3 (u8 (x0 - y1)) (u8 (y0 - x1)) pixel_color)
          (u8 (x0 - x1)) (u8 (y0 - y1)) pixel_color
      else m3
    drawCircleLoop oled x0 y0 cornername pixel_color f1 (ddF_x + 2) ddF_y1
      x1 y1 m4
  else m
termination_by (y - x).toNat
decreasing_by
  simp_wf
  split <;> omega

/-- `drawCircleHelper` (src/oled.c lines 367-407): parameter check, then the
midpoint quarter-circle loop. -/
def drawCircleHelper (oled : OLED) (m : Mem) (x0 y0 r : Int)
    (cornername : Nat) (params : Nat) : OLED_err × Mem :=
  if params > (OLED_BLACK ||| OLED_FILL) then (OLED_EPARAMS, m)
  else
    let pixel_color := params &&& OLED_BLACK ≠ 0
    (OLED_EOK,
      drawCircleLoop oled x0 y0 cornername pixel_color (1 - r) 1 (-2 * r)
        0 r m)

/-- One `OLED_put_line` call from the fill helper, keeping only the memory
(the source ignores the returned error). -/
def lineM (oled : OLED) (a b c d : Int) (params : Nat) (m : Mem) :
    Option Mem :=
  (OLED_put_line oled m (u8 a) (u8 b) (u8 c) (u8 d) params).map fun r => r.2

/-- The midpoint loop of `fillCircleHelper` (src/oled.c lines 433-451);
each iteration draws up to two vertical segments per selected corner via
`OLED_put_line` with `OLED_FILL | params`. -/
def fillCircleLoop (oled : OLED) (x0 y0 : Int) (cornername : Nat)
    (delta : Int) (params : Nat) (f ddF_x ddF_y x y : Int) (m : Mem) :
    Option Mem :=
  if x < y then
    let y1 := if 0 ≤ f then y - 1 else y
    let ddF_y1 := if 0 ≤ f then ddF_y + 2 else ddF_y
    let f1 := (if 0 ≤ f then f + ddF_y + 2 else f) + ddF_x + 2
    let x1 := x + 1
    let step1 : Mem → Option Mem := fun mm =>
      if cornername &&& 0x1 ≠ 0 then
        (lineM oled (x0 + x1) (y0 - y1) (x0 + x1)
          (y0 - y1 + (2 * y1 + 1 + delta) - 1) (OLED_FILL ||| params)
          mm).bind
          (lineM oled (x0 + y1) (y0 - x1) (x0 + y1)
            (y0 - x1 + (2 * x1 + 1 + delta) - 1) (OLED_FILL ||| params))
      else some mm
    let step2 : Mem → Option Mem := fun mm =>
      if cornername &&& 0x2 ≠ 0 then
        (lineM oled (x0 - x1) (y0 - y1) (x0 - x1)
          (y0 - y1 + (2 * y1 + 1 + delta) - 1) (OLED_FILL ||| params)
          mm).bind
          (lineM oled (x0 - y1) (y0 - x1) (x0 - y1)
            (y0 - x1 + (2 * x1 + 1 + delta) - 1) (OLED_FILL ||| params))
      else some mm
    ((step1 m).bind step2).bind fun mm2 =>
      fillCircleLoop oled x0 y0 cornername delta params f1 (ddF_x + 2)
        ddF_y1 x1 y1 mm2
  else some m
termination_by (y - x).toNat
decreasing_by
  simp_wf
  split <;> omega

/-- `fillCircleHelper` (src/oled.c lines 420-453). -/
def fillCircleHelper (oled : OLED) (m : Mem) (x0 y0 r : Int)
    (cornername : Nat) (delta : Int) (params : Nat) :
    Option (OLED_err × Mem) :=
  if params > (OLED_BLACK ||| OLED_FILL) then some (OLED_EPARAMS, m)
  else
    (fillCircleLoop oled x0 y0 cornername delta params (1 - r) 1 (-2 * r)
      0 r m).map fun m2 => (OLED_EOK, m2)

/-- `OLED_put_roundRect` (src/oled.c lines 286-355): parameter check, the
same clamping as `OLED_put_rectangle`, then (without min/max normalization)
either area fill plus two fill-circle corners, or frame edges plus four
quarter-circle corners.  `uint8_t` loop counters and `OLED_put_pixel_`
arguments wrap modulo 256; the `bool pixel_color` passed on to the circle
helpers converts back to the enum value 0 or 1. -/
def OLED_put_roundRect (oled : OLED) (m : Mem)
    (x_from y_from x_to y_to r params : Nat) : Option (OLED_err × Mem) :=
  if params > (OLED_BLACK ||| OLED_FILL) then some (OLED_EPARAMS, m)
  else
    let pixel_color := params &&& OLED_BLACK ≠ 0
    let is_fill := params &&& OLED_FILL ≠ 0
    let w_max := (oled.width + 255) % 256
    let h_max := (oled.height + 255) % 256
    let cxf := rect_clamp w_max x_from
    let cxt := rect_clamp w_max x_to
    let cyf := rect_clamp h_max y_from
    let cyt := rect_clamp h_max y_to
    if cxf.2 + cxt.2 + cyf.2 + cyt.2 ≥ 4 then some (OLED_EBOUNDS, m)
    else
      let start_x := cxf.1
      let start_y := cyf.1
      let stop_x := cxt.1
      let stop_y := cyt.1
      let pcp := if pixel_color then OLED_BLACK else 0
      if is_fill then
        (cforU8 (stop_x + r)
          (fun x mm => cforU8 (stop_y + 2 * r)
            (fun y mm2 => some (OLED_put_pixel_ oled mm2 x y pixel_color))
            start_y mm)
          ((start_x + r) % 256) m).bind fun m1 =>
        (fillCircleHelper oled m1 ((start_x + stop_x : Nat) - (r : Int) - 1)
          ((start_y + r : Nat) : Int) r 1 ((stop_y : Int) - 2 * r - 1)
          pcp).bind fun r1 =>
        (fillCircleHelper oled r1.2 ((start_x + r : Nat) : Int)
          ((start_y + r : Nat) : Int) r 2 ((stop_y : Int) - 2 * r - 1)
          pcp).map fun r2 => (OLED_EOK, r2.2)
      else
        (cforU8 stop_x
          (fun x mm => some (OLED_put_pixel_ oled
            (OLED_put_pixel_ oled mm ((x + r) % 256) start_y pixel_color)
            ((x + r) % 256) ((stop_y + r * 2) % 256) pixel_color))
          start_x m).bind fun m1 =>
        (cforU8 stop_y
          (fun y mm => some (OLED_put_pixel_ oled
            (OLED_put_pixel_ oled mm start_x ((y + r) % 256) pixel_color)
            ((stop_x + 2 * r) % 256) ((y + r) % 256) pixel_color))
          start_y m1).map fun m2 =>
        let m3 := (drawCircleHelper oled m2 ((start_x + r : Nat) : Int)
          ((start_y + r : Nat) : Int) r 1 pcp).2
        let m4 := (drawCircleHelper oled m3
          ((start_x + stop_x : Nat) - (r : Int) - 1)
          ((start_y + r : Nat) : Int) r 2 pcp).2
        let m5 := (drawCircleHelper oled m4
          ((start_x + stop_x : Nat) - (r : Int) - 1)
          ((start_y + stop_y : Nat) - (r : Int) - 1) r 4 pcp).2
        let m6 := (drawCircleHelper oled m5 ((start_x + r : Nat) : Int)
          ((start_y + stop_y : Nat) - (r : Int) - 1) r 8 pcp).2
        (OLED_EOK, m6)

/-- The `uint8` for-loop terminates (returns `some`) whenever the bound is
an exitable `uint8` value and every body step succeeds. -/
theorem cforU8_isSome (stop : Nat) (f : Nat → Mem → Option Mem)
    (hstop : stop < 255) (hf : ∀ a mm, (f a mm).isSome) :
    ∀ x m, (cforU8 stop f x m).isSome := by
  have H : ∀ fuel x m, stop + 1 - x ≤ fuel → (cforU8 stop f x m).isSome := by
    intro fuel
    induction fuel with
    | zero =>
      intro x m hle
      rw [cforU8]
      have h1 : ¬ 255 ≤ stop := by omega
      have h2 : stop < x := by omega
      simp [h1, h2]
    | succ fuel ih =>
      intro x m hle
      rw [cforU8]
      have h1 : ¬ 255 ≤ stop := by omega
      simp only [h1, if_false]
      by_cases h2 : stop < x
      · simp [h2]
      · simp only [h2, if_false]
        obtain ⟨m2, hm2⟩ := Option.isSome_iff_exists.mp (hf x m)
        rw [hm2]
        exact ih (x + 1) m2 (by omega)
  intro x m
  exact H (stop + 1 - x) x m le_rfl

/-- Clamping yields the min of the value and the bound. -/
theorem rect_clamp_fst (vmax v : Nat) : (rect_clamp vmax v).1 = min v vmax := by
  unfold rect_clamp
  split <;> simp <;> omega

/-- The clamp error counter is 1 exactly on out-of-range input. -/
theorem rect_clamp_snd (vmax v : Nat) :
    (rect_clamp vmax v).2 = if vmax < v then 1 else 0 := by
  unfold rect_clamp
  split <;> simp <;> omega

/-- Binding a succeeding option into a total continuation succeeds. -/
theorem bind_isSome {α β : Type} {o : Option α} {g : α → Option β}
    (h1 : o.isSome) (h2 : ∀ a, (g a).isSome) : (o.bind g).isSome := by
  obtain ⟨a, ha⟩ := Option.isSome_iff_exists.mp h1
  rw [ha, Option.some_bind]
  exact h2 a

/-- The rectangle drawing phase terminates when all four (clamped)
coordinates are below 255. -/
theorem rect_draw_isSome (oled : OLED) (m : Mem) (pc fl : Bool)
    (a b c d : Nat) (h1 : a < 255) (h2 : b < 255) (h3 : c < 255)
    (h4 : d < 255) : (rect_draw oled m pc fl a b c d).isSome := by
  unfold rect_draw
  simp only []
  have hsx : (if c > a then c else a) < 255 := by split <;> omega
  have hsy : (if d > b then d else b) < 255 := by split <;> omega
  by_cases hfl : fl = true
  · rw [if_pos hfl]
    apply cforU8_isSome _ _ hsx _ _ m
    intro x mm
    apply cforU8_isSome _ _ hsy _ _ mm
    intro y mm2
    rfl
  · rw [if_neg hfl]
    apply bind_isSome
    · apply cforU8_isSome _ _ hsx
      intro x mm
      rfl
    · intro m1
      apply cforU8_isSome _ _ hsy
      intro y mm
      rfl

/-- `OLED_put_rectangle`, for in-range flag bits and a genuine `uint8`
display geometry, reduced to a clamp-then-draw normal form. -/
theorem put_rectangle_eq (oled : OLED) (m : Mem) (xf yf xt yt params : Nat)
    (hp : params ≤ (OLED_BLACK ||| OLED_FILL))
    (hw1 : 1 ≤ oled.width) (hw2 : oled.width ≤ 255)
    (hh1 : 1 ≤ oled.height) (hh2 : oled.height ≤ 255) :
    OLED_put_rectangle oled m xf yf xt yt params =
      if oled.width - 1 < xf ∧ oled.width - 1 < xt ∧
          oled.height - 1 < yf ∧ oled.height - 1 < yt
      then some (OLED_EBOUNDS, m)
      else (rect_draw oled m (params &&& OLED_BLACK ≠ 0)
          (params &&& OLED_FILL ≠ 0)
          (min xf (oled.width - 1)) (min yf (oled.height - 1))
          (min xt (oled.width - 1)) (min yt (oled.height - 1))).map
        fun m2 => (OLED_EOK, m2) := by
  have hpn : ¬ params > (OLED_BLACK ||| OLED_FILL) := by omega
  have hwmax : (oled.width + 255) % 256 = oled.width - 1 := by omega
  have hhmax : (oled.height + 255) % 256 = oled.height - 1 := by omega
  unfold OLED_put_rectangle
  rw [if_neg hpn]
  simp only [hwmax, hhmax, rect_clamp_fst, rect_clamp_snd]
  by_cases hall : oled.width - 1 < xf ∧ oled.width - 1 < xt ∧
      oled.height - 1 < yf ∧ oled.height - 1 < yt
  · have hsum : (if oled.width - 1 < xf then 1 else 0) +
        (if oled.width - 1 < xt then 1 else 0) +
        (if oled.height - 1 < yf then 1 else 0) +
        (if oled.height - 1 < yt then 1 else 0) ≥ 4 := by
      simp [hall.1, hall.2.1, hall.2.2.1, hall.2.2.2]
    rw [if_pos hsum, if_pos hall]
  · have hsum : ¬ ((if oled.width - 1 < xf then 1 else 0) +
        (if oled.width - 1 < xt then 1 else 0) +
        (if oled.height - 1 < yf then 1 else 0) +
        (if oled.height - 1 < yt then 1 else 0) ≥ 4) := by
      split_ifs <;> omega
    rw [if_neg hsum, if_neg hall]

/-- C7: any `params` with flag bits outside `OLED_BLACK | OLED_FILL` makes
both `OLED_put_rectangle` and `OLED_put_roundRect` return
`OLED_EPARAMS` synchronously with the frame-buffer memory unchanged. -/
theorem params_rejected (oled : OLED) (m : Mem)
    (a b c d r params : Nat)
    (h : params > (OLED_BLACK ||| OLED_FILL)) :
    OLED_put_rectangle oled m a b c d params = some (OLED_EPARAMS, m) ∧
    OLED_put_roundRect oled m a b c d r params = some (OLED_EPARAMS, m) := by
  constructor
  · unfold OLED_put_rectangle
    rw [if_pos h]
  · unfold OLED_put_roundRect
    rw [if_pos h]

/-- C7 witness: `params = 4` is rejected by both shape functions on a
concrete display, leaving the all-zero memory untouched. -/
theorem params_rejected_witness :
    (4 > (OLED_BLACK ||| OLED_FILL)) ∧
    (OLED_put_rectangle OLED0 (fun _ => 0) 0 0 10 10 4 =
        some (OLED_EPARAMS, fun _ => 0) ∧
      OLED_put_roundRect OLED0 (fun _ => 0) 0 0 10 10 3 4 =
        some (OLED_EPARAMS, fun _ => 0)) :=
  ⟨by decide, params_rejected OLED0 (fun _ => 0) 0 0 10 10 3 4 (by decide)⟩

/-- C8: for in-range coordinates, `OLED_put_pixel` returns Ok and reading
back the pixel's bit from the frame buffer yields the requested state; for
any out-of-range coordinate it returns Bounds and leaves the memory
unchanged. -/
theorem pixel_roundtrip (oled : OLED) (m : Mem) (x y : Nat) (s : Bool)
    (hx : x < oled.width) (hy : y < oled.height) :
    (OLED_put_pixel oled m x y s).1 = OLED_EOK ∧
    OLED_pixel_bit oled (OLED_put_pixel oled m x y s).2 x y = s ∧
    ∀ x2 y2, (x2 ≥ oled.width ∨ y2 ≥ oled.height) →
      OLED_put_pixel oled m x2 y2 s = (OLED_EBOUNDS, m) := by
  have hcond : ¬ (x ≥ oled.width ∨ y ≥ oled.height) := by omega
  have hb : y % 8 < 8 := Nat.mod_lt _ (by norm_num)
  have h255 : ∀ i, i < 8 → Nat.testBit 255 i = true := by decide
  refine ⟨?_, ?_, ?_⟩
  · simp [OLED_put_pixel, hcond]
  · simp only [OLED_put_pixel, hcond, if_false, OLED_pixel_bit,
      OLED_put_pixel_, mupd, if_pos rfl]
    cases s with
    | true =>
      simp [Nat.testBit_or, Nat.shiftLeft_eq, Nat.testBit_two_pow_self]
    | false =>
      simp [Nat.testBit_and, Nat.testBit_xor, Nat.shiftLeft_eq,
        Nat.testBit_two_pow_self, h255 _ hb]
  · intro x2 y2 h2
    simp [OLED_put_pixel, h2]

/-- A concrete 128×64 display for exercising the drawing layer. -/
def OLEDdraw : OLED :=
  { width := 128, height := 64, frame_buffer := 0x400, busy_lock := 1,
    i2c_addr := 0x3C, cur_page := 0, num_pages := 8 }

/-- C8 witness: setting pixel (3, 9) on the concrete display and reading it
back. -/
theorem pixel_roundtrip_witness :
    ((3 : Nat) < OLEDdraw.width ∧ (9 : Nat) < OLEDdraw.height) ∧
    ((OLED_put_pixel OLEDdraw (fun _ => 0) 3 9 true).1 = OLED_EOK ∧
     OLED_pixel_bit OLEDdraw
       (OLED_put_pixel OLEDdraw (fun _ => 0) 3 9 true).2 3 9 = true ∧
     ∀ x2 y2, (x2 ≥ OLEDdraw.width ∨ y2 ≥ OLEDdraw.height) →
       OLED_put_pixel OLEDdraw (fun _ => 0) x2 y2 true =
         (OLED_EBOUNDS, fun _ => 0)) :=
  ⟨⟨by decide, by decide⟩,
   pixel_roundtrip OLEDdraw (fun _ => 0) 3 9 true (by decide) (by decide)⟩

/-- C10: with valid flag bits and a genuine `uint8` geometry,
`OLED_put_rectangle` returns Bounds exactly when all four coordinates are
out of range; otherwise it returns Ok, and the resulting memory is the one
obtained by calling it with every offending coordinate clamped to
width-1 / height-1. -/
theorem rectangle_clamping (oled : OLED) (m : Mem) (xf yf xt yt params : Nat)
    (hp : params ≤ (OLED_BLACK ||| OLED_FILL))
    (hw1 : 1 ≤ oled.width) (hw2 : oled.width ≤ 255)
    (hh1 : 1 ≤ oled.height) (hh2 : oled.height ≤ 255) :
    (OLED_put_rectangle oled m xf yf xt yt params = some (OLED_EBOUNDS, m) ↔
      (oled.width - 1 < xf ∧ oled.width - 1 < xt ∧
       oled.height - 1 < yf ∧ oled.height - 1 < yt)) ∧
    (¬ (oled.width - 1 < xf ∧ oled.width - 1 < xt ∧
        oled.height - 1 < yf ∧ oled.height - 1 < yt) →
      ∃ m2,
        OLED_put_rectangle oled m xf yf xt yt params =
          some (OLED_EOK, m2) ∧
        OLED_put_rectangle oled m (min xf (oled.width - 1))
          (min yf (oled.height - 1)) (min xt (oled.width - 1))
          (min yt (oled.height - 1)) params = some (OLED_EOK, m2)) := by
  have heq := put_rectangle_eq oled m xf yf xt yt params hp hw1 hw2 hh1 hh2
  by_cases hall : oled.width - 1 < xf ∧ oled.width - 1 < xt ∧
      oled.height - 1 < yf ∧ oled.height - 1 < yt
  · refine ⟨⟨fun _ => hall, fun _ => ?_⟩, fun hn => absurd hall hn⟩
    rw [heq, if_pos hall]
  · have hA : min xf (oled.width - 1) < 255 := by omega
    have hB : min yf (oled.height - 1) < 255 := by omega
    have hC : min xt (oled.width - 1) < 255 := by omega
    have hD : min yt (oled.height - 1) < 255 := by omega
    have hsome := rect_draw_isSome oled m (params &&& OLED_BLACK ≠ 0)
      (params &&& OLED_FILL ≠ 0) (min xf (oled.width - 1))
      (min yf (oled.height - 1)) (min xt (oled.width - 1))
      (min yt (oled.height - 1)) hA hB hC hD
    obtain ⟨m2, hm2⟩ := Option.isSome_iff_exists.mp hsome
    have hmain : OLED_put_rectangle oled m xf yf xt yt params =
        some (OLED_EOK, m2) := by
      rw [heq, if_neg hall, hm2]
      rfl
    refine ⟨⟨fun hEB => ?_, fun h => absurd h hall⟩, fun _ => ⟨m2, hmain, ?_⟩⟩
    · rw [hmain] at hEB
      simp at hEB
    · have heq2 := put_rectangle_eq oled m (min xf (oled.width - 1))
        (min yf (oled.height - 1)) (min xt (oled.width - 1))
        (min yt (oled.height - 1)) params hp hw1 hw2 hh1 hh2
      have hall2 : ¬ (oled.width - 1 < min xf (oled.width - 1) ∧
          oled.width - 1 < min xt (oled.width - 1) ∧
          oled.height - 1 < min yf (oled.height - 1) ∧
          oled.height - 1 < min yt (oled.height - 1)) := by omega
      have e1 : min (min xf (oled.width - 1)) (oled.width - 1) =
          min xf (oled.width - 1) := by omega
      have e2 : min (min yf (oled.height - 1)) (oled.height - 1) =
          min yf (oled.height - 1) := by omega
      have e3 : min (min xt (oled.width - 1)) (oled.width - 1) =
          min xt (oled.width - 1) := by omega
      have e4 : min (min yt (oled.height - 1)) (oled.height - 1) =
          min yt (oled.height - 1) := by omega
      rw [heq2, if_neg hall2, e1, e2, e3, e4, hm2]
      rfl

/-- C10 witness: on the concrete 128×64 display, `y_from = 100` is out of
range (the other three coordinates are in range), so the call returns Ok
and equals the call with `y_from` clamped to 63. -/
theorem rectangle_clamping_witness :
    ((1 : Nat) ≤ (OLED_BLACK ||| OLED_FILL) ∧
     1 ≤ OLEDdraw.width ∧ OLEDdraw.width ≤ 255 ∧
     1 ≤ OLEDdraw.height ∧ OLEDdraw.height ≤ 255) ∧
    ((OLED_put_rectangle OLEDdraw (fun _ => 0) 5 100 10 7 1 =
        some (OLED_EBOUNDS, fun _ => 0) ↔
      (OLEDdraw.width - 1 < 5 ∧ OLEDdraw.width - 1 < 10 ∧
       OLEDdraw.height - 1 < 100 ∧ OLEDdraw.height - 1 < 7)) ∧
    (¬ (OLEDdraw.width - 1 < 5 ∧ OLEDdraw.width - 1 < 10 ∧
        OLEDdraw.height - 1 < 100 ∧ OLEDdraw.height - 1 < 7) →
      ∃ m2,
        OLED_put_rectangle OLEDdraw (fun _ => 0) 5 100 10 7 1 =
          some (OLED_EOK, m2) ∧
        OLED_put_rectangle OLEDdraw (fun _ => 0)
          (min 5 (OLEDdraw.width - 1)) (min 100 (OLEDdraw.height - 1))
          (min 10 (OLEDdraw.width - 1)) (min 7 (OLEDdraw.height - 1)) 1 =
          some (OLED_EOK, m2))) :=
  ⟨⟨by decide, by decide, by decide, by decide, by decide⟩,
   rectangle_clamping OLEDdraw (fun _ => 0) 5 100 10 7 1 (by decide)
     (by decide) (by decide) (by decide) (by decide)⟩
